import Mathlib

/-!
Verification development for the insurance-assistant core of this repository.

The Python sources embedded here (shallowly, as executable Lean definitions):
- backend/agents/calculators/age_matcher.py  (AgeBandMatcher.parse_age_band,
  AgeBandMatcher.find_age_band_row) and the behaviourally identical copies
  PremiumCalculator._parse_age_band / PremiumCalculator._find_age_band_row in
  backend/agents/premium_calculator.py;
- backend/agents/premium_calculator.py (PremiumCalculator._parse_sum_insured,
  _find_sum_insured_column, _lookup_premium, calculate_individual_premium,
  calculate_family_floater_premium, calculate_premium) and the identical
  find_sum_insured_column copy in backend/agents/calculators/excel_parser.py;
- backend/agents/agentic/react_agent.py (ReActAgent._parse_react_response,
  ReActAgent._execute_action, ReActAgent.run, ReActTrace.add_step).

Python strings are modelled as lists of characters (type Str below) and the
regular expressions used by the source are compiled by hand into
deterministic matchers; each matcher carries a comment arguing why greedy
matching without backtracking computes the same result as the Python regex
on its pattern.  Python floats are modelled as rationals, Python ints as Int,
raised exceptions as Except, and dict results as structures whose Option
fields model presence or absence of a key.  External collaborators (the LLM,
the json module, pandas file loading) are opaque in the source and are
parameters here: the LLM is a function from the trace to a response text and
json.loads is a function from text to an optional JSON value.
-/

/-- Python strings, modelled as explicit character lists so that every string
operation used by the source can be given exact executable semantics. -/
abbrev Str := List Char

/-- The single-quote character, used by Python repr output. -/
def sqc : Char := Char.ofNat 39

/-- First index satisfying a predicate; models a Python for-loop that returns
the index of the first hit and falls through otherwise. -/
def findIdxO {α : Type} (p : α → Bool) : List α → Option Nat
  | [] => none
  | a :: l => if p a then some 0 else (findIdxO p l).map (fun i => i + 1)

/-- Characters treated as whitespace by Python str.strip() and by the regex
class backslash-s: space, tab, newline, carriage return, vertical tab and
form feed. -/
def pySpace (c : Char) : Bool :=
  c = ' ' || c = '\t' || c = '\n' || c = '\r' || c = Char.ofNat 11 || c = Char.ofNat 12

/-- Python str.strip(): drop whitespace from both ends. -/
def pyStrip (s : Str) : Str :=
  ((s.dropWhile pySpace).reverse.dropWhile pySpace).reverse

/-- Python str.lower() on the ASCII range used by the rate tables. -/
def lowerStr (s : Str) : Str := s.map Char.toLower

/-- Python str.upper() on the ASCII range used by the rate tables. -/
def upperStr (s : Str) : Str := s.map Char.toUpper

/-- Python substring containment (the `in` operator on str). -/
def isSubStr (needle : Str) : Str → Bool
  | [] => needle.isPrefixOf []
  | c :: rest => needle.isPrefixOf (c :: rest) || isSubStr needle rest

/-- Fuel-driven core of replaceAll; the fuel is the length of the subject
string, which suffices because every step consumes at least one character. -/
def replaceAllF (p r : Str) : Nat → Str → Str
  | 0, s => s
  | _ + 1, [] => []
  | fuel + 1, c :: rest =>
    if p.isPrefixOf (c :: rest) then r ++ replaceAllF p r fuel (rest.drop (p.length - 1))
    else c :: replaceAllF p r fuel rest

/-- Python str.replace(p, r) for a non-empty pattern p: replace every
non-overlapping occurrence, scanning left to right.  (The source only ever
replaces non-empty literal labels such as "Thought:".) -/
def replaceAll (p r s : Str) : Str :=
  if p.isEmpty then s else replaceAllF p r s.length s

/-- Python str.split(sep) for a one-character separator. -/
def splitOnChar (sep : Char) : Str → List Str
  | [] => [[]]
  | c :: rest =>
    let r := splitOnChar sep rest
    if c = sep then [] :: r
    else
      match r with
      | h :: t => (c :: h) :: t
      | [] => [[c]]

/-- Python sep.join(xs). -/
def joinSep (sep : Str) : List Str → Str
  | [] => []
  | [x] => x
  | x :: y :: rest => x ++ sep ++ joinSep sep (y :: rest)

/-- Numeric value of an ASCII digit character. -/
def digitVal (c : Char) : Nat := c.toNat - 48

/-- Accumulating decimal reader for a digit string. -/
def readNatAux : Str → Nat → Nat
  | [], acc => acc
  | c :: rest, acc => readNatAux rest (acc * 10 + digitVal c)

/-- Decimal value of a digit string, as produced by int() on a regex group. -/
def readNat (s : Str) : Nat := readNatAux s 0

/-- Split a string into its maximal leading digit run and the rest; this is
what a greedy anchored regex group of one-or-more digits consumes. -/
def spanDigits (s : Str) : Str × Str := (s.takeWhile Char.isDigit, s.dropWhile Char.isDigit)

/-- Greedy consumption of a regex whitespace-star. -/
def dropSpacesRe (s : Str) : Str := s.dropWhile pySpace

/-- Last index of a character in a string; models Python str.rfind for the
found case (the caller handles absence separately). -/
def rfindIdx (c : Char) (s : Str) : Option Nat :=
  match findIdxO (fun x => x == c) s.reverse with
  | some k => some (s.length - 1 - k)
  | none => none

/-- Python slice s[a:b] for 0 <= a <= b. -/
def sliceStr (s : Str) (a b : Nat) : Str := (s.drop a).take (b - a)

/-- Decimal rendering of a Python int, as used by f-strings in the source. -/
def intStr (i : Int) : Str := (toString i).data

/-- Python repr of a list of strings, as interpolated by f-strings such as
the available-sheets error message. -/
def pyReprStrList (xs : List Str) : Str :=
  [Char.ofNat 91] ++ joinSep (", ".data) (xs.map (fun s => [sqc] ++ s ++ [sqc])) ++ [Char.ofNat 93]

/-- The literal "day" searched for by the infant-age branch. -/
def dayLit : Str := "day".data

/-- Greedy consumption of the optional hyphen of the day regex. -/
def dayHyphenDrop : Str → Str
  | '-' :: t => t
  | r => r

/-- The text between the first digit group of the day regex and its second
(optional) digit group: spaces, optional hyphen, spaces. -/
def dayMid (r : Str) : Str := dropSpacesRe (dayHyphenDrop (dropSpacesRe r))

/-- Matcher for the day regex
digits, spaces, optional hyphen, spaces, optional digits, spaces, "day",
optional "s"
anchored at the current position (the first group must start here).  Greedy
matching without backtracking is exact for this pattern: the character
classes digit, whitespace, hyphen and the literal "day" are pairwise
disjoint, so no shorter match of one piece can enable a later piece, and
splitting the leading digit run between the two digit groups never changes
the end position reached. -/
def matchDaysAt (s : Str) : Option (Nat × Nat) :=
  match spanDigits s with
  | ([], _) => none
  | (ds, rest0) =>
    if dayLit.isPrefixOf (dropSpacesRe (spanDigits (dayMid rest0)).2) then
      some (readNat ds,
        if (spanDigits (dayMid rest0)).1.isEmpty then readNat ds
        else readNat (spanDigits (dayMid rest0)).1)
    else none

/-- re.search for the day pattern: try every start position left to right,
exactly the leftmost-match rule of the Python regex engine. -/
def scanDays : Str → Option (Nat × Nat)
  | [] => none
  | c :: rest =>
    match matchDaysAt (c :: rest) with
    | some r => some r
    | none => scanDays rest

/-- re.search for one-or-more digits: value of the first maximal digit run. -/
def firstNatScan : Str → Option Nat
  | [] => none
  | c :: rest =>
    if c.isDigit then some (readNat ((c :: rest).takeWhile Char.isDigit))
    else firstNatScan rest

/-- re.match (anchored at the start, not at the end) for
digits, spaces, hyphen, spaces, digits, the two groups being returned. -/
def matchRangeAt (s : Str) : Option (Nat × Nat) :=
  match spanDigits s with
  | ([], _) => none
  | (ds, rest0) =>
    match dropSpacesRe rest0 with
    | '-' :: rest1 =>
      match spanDigits (dropSpacesRe rest1) with
      | ([], _) => none
      | (ds2, _) => some (readNat ds, readNat ds2)
    | _ => none

/-- re.match for a full-string digit run (the exact-age pattern). -/
def matchExactNat (s : Str) : Option Nat :=
  if !s.isEmpty && s.all Char.isDigit then some (readNat s) else none

/-- The range and exact-age fallthrough of parse_age_band. -/
def parseRangeOrExact (s : Str) : Option (Nat × Option Nat) :=
  match matchRangeAt s with
  | some (a, b) => some (a, some b)
  | none =>
    match matchExactNat s with
    | some n => some (n, some n)
    | none => none

/-- The year-based branches of parse_age_band: open-ended bands first (any
label containing a plus or a greater-than sign), then ranges, then exact
ages; a ValueError is modelled as none. -/
def parseYears (s : Str) : Option (Nat × Option Nat) :=
  if s.contains '+' || s.contains '>' then
    match firstNatScan s with
    | some n => some (if s.contains '>' && !(s.contains '+') then n + 1 else n, none)
    | none => parseRangeOrExact s
  else parseRangeOrExact s

/-- The normalisation applied on entry to parse_age_band: strip then lower
(the later re-strip in the source is a no-op on the already stripped text). -/
def normBand (s : Str) : Str := lowerStr (pyStrip s)

/-- AgeBandMatcher.parse_age_band together with its identical copy
PremiumCalculator._parse_age_band: labels containing "day" go through the
day matcher with integer division by 365; otherwise open-ended, range and
exact-age patterns are tried in that order.  The raised ValueError of the
source is modelled as none. -/
def parse_age_band (s : Str) : Option (Nat × Option Nat) :=
  let t := normBand s
  if isSubStr dayLit t then
    match scanDays t with
    | some (d1, d2) => some (d1 / 365, some (d2 / 365))
    | none => parseYears t
  else parseYears t

/-- First-pass test of find_age_band_row: the row parses to an exact
single-age band equal to the queried age. -/
def rowExact (age : Int) (s : Str) : Bool :=
  match parse_age_band s with
  | some (l, some u) => l == u && ((u : Int) == age)
  | _ => false

/-- Second-pass test of find_age_band_row: the parsed band contains the age
(open-ended bands are satisfied by any age at or above the lower bound). -/
def rowContainsAge (age : Int) (s : Str) : Bool :=
  match parse_age_band s with
  | some (l, none) => decide ((l : Int) ≤ age)
  | some (l, some u) => decide ((l : Int) ≤ age) && decide (age ≤ (u : Int))
  | none => false

/-- AgeBandMatcher.find_age_band_row and the identical
PremiumCalculator._find_age_band_row: two passes over the rows of the sheet
(the iterrows index of a freshly loaded sheet is the position), the first
looking for an exact single-age match, the second for a containing band;
rows whose label fails to parse are skipped by both passes. -/
def find_age_band_row (rows : List Str) (age : Int) : Option Nat :=
  match findIdxO (rowExact age) rows with
  | some i => some i
  | none => findIdxO (rowContainsAge age) rows

/-- The age-band column label; sheet columns are stripped strings after
_load_workbook normalisation. -/
def ageBandLit : Str := "Age Band".data

/-- Matcher for the anchored regex group digits, optional dot, digit-star
followed by the literal L, returning the integer and fraction digit runs.
Greedy matching is exact: shrinking the leading digit run only moves digits
into the optional fraction run with the same end position, and a dot can
never stand where the L is expected. -/
def matchDecThenL (s : Str) : Option (Str × Str) :=
  match spanDigits s with
  | ([], _) => none
  | (ds, rest0) =>
    let p :=
      match rest0 with
      | '.' :: t => spanDigits t
      | _ => (([] : Str), rest0)
    match p.2 with
    | 'L' :: _ => some (ds, p.1)
    | _ => none

/-- Same matcher but for the LAKH / LAC suffix alternative of the source.
(On any input the plain-L pattern above already matches a prefix of LAKH and
LAC, so this branch is unreachable in _parse_sum_insured; it is embedded for
completeness.) -/
def matchDecThenLakh (s : Str) : Option (Str × Str) :=
  match spanDigits s with
  | ([], _) => none
  | (ds, rest0) =>
    let p :=
      match rest0 with
      | '.' :: t => spanDigits t
      | _ => (([] : Str), rest0)
    if ("LAKH".data).isPrefixOf p.2 || ("LAC".data).isPrefixOf p.2 then some (ds, p.1)
    else none

/-- Value of int(float(group) * 100000) for a decimal group split into
integer digits and fraction digits; exact rational arithmetic with Python
truncation toward zero (the group is non-negative). -/
def lakhValue (ds fs : Str) : Nat :=
  readNat ds * 100000 + readNat (fs.take 5) * 10 ^ (5 - min 5 fs.length)

/-- Value of int(float(s)) for a plain decimal literal: optional sign,
digits, at most one dot, nothing else.  Other float syntax (exponents,
infinities) does not occur among rate-table column labels and is modelled as
a parse failure. -/
def pyFloatTrunc (s : Str) : Option Int :=
  let q :=
    match s with
    | '-' :: t => (true, t)
    | '+' :: t => (false, t)
    | t => (false, t)
  let p := spanDigits q.2
  let r :=
    match p.2 with
    | '.' :: t2 => spanDigits t2
    | _ => (([] : Str), p.2)
  if (match p.2 with | '.' :: _ => r.2.isEmpty | _ => p.2.isEmpty) && !(p.1.isEmpty && r.1.isEmpty) then
    some (if q.1 then -(readNat p.1 : Int) else (readNat p.1 : Int))
  else none

/-- PremiumCalculator._parse_sum_insured (string branch; column labels are
always strings after _load_workbook) and the identical
ExcelWorkbookParser.parse_sum_insured: strip, uppercase, remove commas and
spaces, then try the L shorthand, the LAKH / LAC shorthand, and finally a
plain numeric parse truncated to int; a raised ValueError is none. -/
def _parse_sum_insured (s : Str) : Option Int :=
  let t := (upperStr (pyStrip s)).filter (fun c => !(c = ',' || c = ' '))
  match matchDecThenL t with
  | some (ds, fs) => some ((lakhValue ds fs : Nat) : Int)
  | none =>
    match matchDecThenLakh t with
    | some (ds, fs) => some ((lakhValue ds fs : Nat) : Int)
    | none => pyFloatTrunc t

/-- The candidate list built by _find_sum_insured_column: every column label
except "Age Band" that parses as a sum-insured amount, paired with its
parsed value, in sheet order. -/
def siCandidates (cols : List Str) : List (Int × Str) :=
  cols.filterMap (fun c =>
    if c = ageBandLit then none
    else (_parse_sum_insured c).map (fun v => (v, c)))

/-- Sort order used on the candidates: by parsed value.  Python list.sort is
stable, as is insertion sort with a non-strict comparison. -/
def siLe (x y : Int × Str) : Prop := x.1 ≤ y.1

instance : DecidableRel siLe := fun x y => Int.decLe x.1 y.1

instance : IsTotal (Int × Str) siLe := ⟨fun x y => Int.le_total x.1 y.1⟩

instance : IsTrans (Int × Str) siLe := ⟨fun _ _ _ h h2 => le_trans h h2⟩

/-- PremiumCalculator._find_sum_insured_column and the identical
ExcelWorkbookParser.find_sum_insured_column: collect parseable columns, sort
ascending by value, return the first exact match, else the first strictly
higher value (ceiling rule), else the highest value; none only when no
column parses. -/
def _find_sum_insured_column (cols : List Str) (target : Int) : Option Str :=
  match siCandidates cols with
  | [] => none
  | c0 :: cs =>
    let sorted := (c0 :: cs).insertionSort siLe
    match sorted.find? (fun e => e.1 == target) with
    | some e => some e.2
    | none =>
      match sorted.find? (fun e => decide (target < e.1)) with
      | some e => some e.2
      | none => (sorted.getLast?).map (fun e => e.2)

/-- Calculator construction state: the GST rate fixed by the constructor,
whose Python default argument is 0.18. -/
structure PremiumCalc where
  gst_rate : ℚ := 18 / 100

/-- One sheet row: the "Age Band" cell plus the premium cells keyed by
column label.  A cell holds none where the spreadsheet value is NaN or not
convertible to float, both of which make _lookup_premium return None. -/
structure DFRow where
  ageBand : Str
  cells : List (Str × Option ℚ)

/-- One sheet: the stripped column labels (as produced by _load_workbook)
and the rows in order (the iterrows index of a freshly read sheet equals the
position). -/
structure DF where
  cols : List Str
  rows : List DFRow

/-- The loaded workbook: sheets keyed by name. -/
abbrev Workbook := List (Str × DF)

/-- Reading df.loc at a row index and a column label, with NaN and
conversion failures folded into none. -/
def dfLookupCell (df : DF) (ridx : Nat) (col : Str) : Option ℚ :=
  match df.rows.get? ridx with
  | none => none
  | some r => (List.lookup col r.cells).join

/-- PremiumCalculator._lookup_premium: sheet lookup, age-band row lookup,
sum-insured column lookup, then the cell value; every miss is None.  (The
format-detection call in the source only feeds logging.) -/
def _lookup_premium (wb : Workbook) (sheet : Str) (age : Int) (si : Int) : Option ℚ :=
  match List.lookup sheet wb with
  | none => none
  | some df =>
    match find_age_band_row (df.rows.map DFRow.ageBand) age with
    | none => none
    | some ridx =>
      match _find_sum_insured_column df.cols si with
      | none => none
      | some col => dfLookupCell df ridx col

/-- The age-band display string fetched after a successful lookup:
df.loc at the matched row if a row matched, else "Unknown".  (At its call
sites the sheet exists; the none branches are unreachable defaults.) -/
def ageBandAt (wb : Workbook) (sheet : Str) (age : Int) : Str :=
  match List.lookup sheet wb with
  | none => "Unknown".data
  | some df =>
    match find_age_band_row (df.rows.map DFRow.ageBand) age with
    | none => "Unknown".data
    | some ridx =>
      match df.rows.get? ridx with
      | some r => r.ageBand
      | none => "Unknown".data

/-- A member dict: the value of the "age" key when present.  (The embedding
domain restricts ages to integers; the claims record where the source would
additionally misbehave on non-integer ages.) -/
structure Member where
  age : Option Int := none

/-- One entry of the individual-policy breakdown list; Option fields model
the presence of the corresponding dict key. -/
structure BDEntry where
  member : Option Member := none
  age : Option Int := none
  age_band : Option Str := none
  sum_insured : Option Int := none
  premium : ℚ := 0
  error : Option Str := none

/-- A premium-calculation result dict; Option fields model the presence of
the corresponding key, so a "successful" result is one whose error field is
none. -/
structure CalcResult where
  error : Option Str := none
  policy_type : Option Str := none
  composition : Option Str := none
  num_adults : Option Int := none
  num_children : Option Int := none
  eldest_age : Option Int := none
  age_band : Option Str := none
  sum_insured : Option Int := none
  gross_premium : Option ℚ := none
  gst_rate : Option ℚ := none
  gst_amount : Option ℚ := none
  total_premium : Option ℚ := none
  breakdown : Option (List BDEntry) := none

/-- Loop body of calculate_individual_premium: fold one member into the
(breakdown, gross total) accumulator. -/
def indivStep (wb : Workbook) (si : Int) (acc : List BDEntry × ℚ) (m : Member) : List BDEntry × ℚ :=
  match m.age with
  | none => (acc.1 ++ [{ member := some m, error := some ("Age not provided".data), premium := 0 }], acc.2)
  | some age =>
    match _lookup_premium wb ("Individual".data) age si with
    | none =>
      (acc.1 ++ [{ member := some m, age := some age, error := some ("Premium not found".data), premium := 0 }], acc.2)
    | some premium =>
      let band := ageBandAt wb ("Individual".data) age
      (acc.1 ++ [{ member := some m, age := some age, age_band := some band,
                   sum_insured := some si, premium := premium }], acc.2 + premium)

/-- PremiumCalculator.calculate_individual_premium: per-member lookup with
partial success (a failed member contributes premium 0 and an error entry),
then GST on the gross total. -/
def calculate_individual_premium (pc : PremiumCalc) (wb : Workbook)
    (members : List Member) (si : Int) (include_gst : Bool) : CalcResult :=
  if members.isEmpty then
    { error := some ("No members provided".data), policy_type := some ("individual".data),
      gross_premium := some 0, gst_amount := some 0, total_premium := some 0 }
  else
    let folded := members.foldl (indivStep wb si) ([], 0)
    let gross := folded.2
    let gst := if include_gst then gross * pc.gst_rate else 0
    { policy_type := some ("individual".data), sum_insured := some si,
      gross_premium := some gross,
      gst_rate := some (if include_gst then pc.gst_rate else 0),
      gst_amount := some gst, total_premium := some (gross + gst),
      breakdown := some folded.1 }

/-- Sheet-name derivation of calculate_family_floater_premium; none is the
unsupported-composition case. -/
def ffSheetName (nA nC : Int) : Option Str :=
  if nC = 0 then
    if nA = 1 then some ("Individual".data)
    else if nA = 2 then some ("2 Adults".data)
    else none
  else if nA = 1 then
    some (if nC = 1 then "1 Adult + 1 Child".data
          else "1 Adult + ".data ++ intStr nC ++ " Children".data)
  else if nA = 2 then
    some (if nC = 1 then "2 Adults + 1 Child".data
          else "2 Adults + ".data ++ intStr nC ++ " Children".data)
  else none

/-- PremiumCalculator.calculate_family_floater_premium: derive the sheet
name from the composition, fail as an error dict when the sheet is missing
or the lookup misses, else price with GST using the eldest age. -/
def calculate_family_floater_premium (pc : PremiumCalc) (wb : Workbook)
    (nA nC : Int) (eldest : Int) (si : Int) (include_gst : Bool) : CalcResult :=
  match ffSheetName nA nC with
  | none =>
    { error := some ("Unsupported composition: ".data ++ intStr nA ++ " adults, ".data ++
                     intStr nC ++ " children".data) }
  | some sheet =>
    match List.lookup sheet wb with
    | none =>
      { error := some ("Sheet ".data ++ [sqc] ++ sheet ++ [sqc] ++
                       " not found in workbook. Available sheets: ".data ++
                       pyReprStrList (wb.map Prod.fst)),
        policy_type := some ("family_floater".data) }
    | some _ =>
      match _lookup_premium wb sheet eldest si with
      | none =>
        { error := some ("Premium not found for age ".data ++ intStr eldest ++
                         ", sum insured ".data ++ intStr si ++ " in sheet ".data ++ sheet),
          policy_type := some ("family_floater".data), composition := some sheet }
      | some gross =>
        let band := ageBandAt wb sheet eldest
        let gst := if include_gst then gross * pc.gst_rate else 0
        { policy_type := some ("family_floater".data), composition := some sheet,
          num_adults := some nA, num_children := some nC, eldest_age := some eldest,
          age_band := some band, sum_insured := some si, gross_premium := some gross,
          gst_rate := some (if include_gst then pc.gst_rate else 0),
          gst_amount := some gst, total_premium := some (gross + gst) }

/-- A Python exception escaping calculate_premium. -/
inductive PyErr where
  | keyError : PyErr
deriving DecidableEq

/-- Maximum of a non-empty list of ints, head-seeded, as Python max. -/
def maxIntList : Int → List Int → Int
  | m, [] => m
  | m, x :: rest => maxIntList (max m x) rest

/-- The list comprehension reading the "age" key of every member: the first
member without the key makes the whole comprehension raise KeyError,
modelled as none. -/
def collectAges : List Member → Option (List Int)
  | [] => some []
  | m :: rest =>
    match m.age, collectAges rest with
    | some a, some rest2 => some (a :: rest2)
    | _, _ => none

/-- PremiumCalculator.calculate_premium: route to the individual or
family-floater calculator.  For family_floater with members but a missing
count, composition is auto-detected with the 18-year adult threshold and the
eldest adult age (default 18 when no adults); with explicit counts the
eldest age is max of every member age, where a member without an "age" key
raises KeyError - modelled as Except.error. -/
def calculate_premium (pc : PremiumCalc) (wb : Workbook) (policy_type : Str)
    (members : Option (List Member)) (num_adults num_children : Option Int)
    (si : Int) (include_gst : Bool) : Except PyErr CalcResult :=
  if policy_type = "individual".data then
    .ok (calculate_individual_premium pc wb (members.getD []) si include_gst)
  else if policy_type = "family_floater".data then
    let ms := members.getD []
    if !ms.isEmpty && (num_adults.isNone || num_children.isNone) then
      let adults := ms.filter (fun m => decide (18 ≤ m.age.getD 0))
      let children := ms.filter (fun m => decide (m.age.getD 0 < 18))
      let eldest : Int :=
        match adults with
        | [] => 18
        | a :: rest => maxIntList (a.age.getD 0) (rest.map (fun m => m.age.getD 0))
      .ok (calculate_family_floater_premium pc wb (adults.length : Int) (children.length : Int)
            eldest si include_gst)
    else
      match ms with
      | [] => .ok { error := some ("Must provide members or eldest_age for family floater".data) }
      | m0 :: rest =>
        match m0.age, collectAges rest with
        | some a0, some ages =>
          .ok (calculate_family_floater_premium pc wb (num_adults.getD 0) (num_children.getD 0)
                (maxIntList a0 ages) si include_gst)
        | _, _ => .error .keyError
  else
    .ok { error := some ("Unknown policy_type: ".data ++ policy_type ++
                         ". Use ".data ++ [sqc] ++ "individual".data ++ [sqc] ++ " or ".data ++
                         [sqc] ++ "family_floater".data ++ [sqc]) }

/-- JSON-like Python values passed around the ReAct loop (action inputs,
tool results).  The json module itself is an external collaborator: where
the source calls json.loads the embedding takes a parser parameter
jparse : Str -> Option JValue, and where it calls json.dumps a printer
parameter jdump : JValue -> Str. -/
inductive JValue where
  | null : JValue
  | jbool : Bool → JValue
  | jnum : Int → JValue
  | jstr : Str → JValue
  | jarr : List JValue → JValue
  | jobj : List (Str × JValue) → JValue

mutual

/-- Python str() or f-string rendering of a JValue (repr for containers,
matching how f-strings show dicts with single quotes). -/
def pyReprJ : JValue → Str
  | .null => "None".data
  | .jbool true => "True".data
  | .jbool false => "False".data
  | .jnum n => intStr n
  | .jstr s => [sqc] ++ s ++ [sqc]
  | .jarr xs => [Char.ofNat 91] ++ pyReprJList xs ++ [Char.ofNat 93]
  | .jobj fs => [Char.ofNat 123] ++ pyReprJFields fs ++ [Char.ofNat 125]

/-- Comma-joined renderings of list elements. -/
def pyReprJList : List JValue → Str
  | [] => []
  | [x] => pyReprJ x
  | x :: y :: rest => pyReprJ x ++ ", ".data ++ pyReprJList (y :: rest)

/-- Comma-joined renderings of dict items. -/
def pyReprJFields : List (Str × JValue) → Str
  | [] => []
  | [kv] => [sqc] ++ kv.1 ++ [sqc] ++ ": ".data ++ pyReprJ kv.2
  | kv :: y :: rest =>
    [sqc] ++ kv.1 ++ [sqc] ++ ": ".data ++ pyReprJ kv.2 ++ ", ".data ++ pyReprJFields (y :: rest)

end

/-- Python str() of a value that is a plain string stays itself; containers
render as their repr. -/
def pyStrOfJ : JValue → Str
  | .jstr s => s
  | v => pyReprJ v

/-- Python truthiness of a JValue. -/
def jTruthy : JValue → Bool
  | .null => false
  | .jbool b => b
  | .jnum n => !(n == 0)
  | .jstr s => !s.isEmpty
  | .jarr xs => !xs.isEmpty
  | .jobj fs => !fs.isEmpty

/-- Python dict.get on a JValue object (none for a missing key; the callers
in the source only apply it to dicts). -/
def jObjGet (j : JValue) (key : Str) : Option JValue :=
  match j with
  | .jobj fs => List.lookup key fs
  | _ => none

/-- The Action Input branch of _parse_react_response for one stripped line
at index i: parse the inline JSON; on failure join every line from i on,
remove the label, and parse the span from the first opening brace to the
last closing brace if such a span exists (wrapping the joined text as a
query dict when that parse also fails); when no such span exists the
previously accumulated action input is kept unchanged. -/
def actionInputOfLine (jparse : Str → Option JValue) (lines : List Str) (i : Nat)
    (line : Str) (prev : JValue) : JValue :=
  let json_str := pyStrip (replaceAll ("Action Input:".data) [] line)
  match jparse json_str with
  | some j => j
  | none =>
    let json_str2 := pyStrip (replaceAll ("Action Input:".data) [] (joinSep ("\n".data) (lines.drop i)))
    let startI : Int :=
      match findIdxO (fun c => c == Char.ofNat 123) json_str2 with
      | some k => (k : Int)
      | none => -1
    let endI : Int :=
      (match rfindIdx (Char.ofNat 125) json_str2 with
       | some k => (k : Int)
       | none => -1) + 1
    if 0 ≤ startI && startI < endI then
      match jparse (sliceStr json_str2 startI.toNat endI.toNat) with
      | some j => j
      | none => .jobj [("query".data, .jstr json_str2)]
    else prev

/-- One pass of the line loop of _parse_react_response over the enumerated
line (i, raw): strip the line, then dispatch on the Thought: / Action: /
Action Input: label, leaving the state unchanged for any other line. -/
def reactLoopStep (jparse : Str → Option JValue) (lines : List Str)
    (st : Str × Str × JValue) (iline : Nat × Str) : Str × Str × JValue :=
  let line := pyStrip iline.2
  if ("Thought:".data).isPrefixOf line then
    (pyStrip (replaceAll ("Thought:".data) [] line), st.2.1, st.2.2)
  else if ("Action:".data).isPrefixOf line then
    (st.1, pyStrip (replaceAll ("Action:".data) [] line), st.2.2)
  else if ("Action Input:".data).isPrefixOf line then
    (st.1, st.2.1, actionInputOfLine jparse lines iline.1 line st.2.2)
  else st

/-- ReActAgent._parse_react_response: split on newlines, run the line loop
from the empty state (empty thought, empty action, empty dict input), then
apply the defaults: an empty thought becomes the placeholder and an empty
action becomes finish with the generic no-clear-action answer. -/
def _parse_react_response (jparse : Str → Option JValue) (response : Str) :
    Str × Str × JValue :=
  let lines := splitOnChar '\n' response
  let st := lines.enum.foldl (reactLoopStep jparse lines) ([], [], JValue.jobj [])
  let th := if st.1.isEmpty then "Continue with next step".data else st.1
  if st.2.1.isEmpty then
    (th, "finish".data, .jobj [("answer".data, .jstr ("No clear action determined".data))])
  else (th, st.2.1, st.2.2)

/-- A tool as dispatched by the loop: takes the json.dumps rendering of the
action input plus the context, and either returns a value or raises (the
Except.error branch carrying str of the exception). -/
abbrev ReActTool (Ctx : Type) := Str → Ctx → Except Str JValue

/-- ReActAgent._execute_action: unknown actions and raised exceptions become
error observation strings; a dict result is unwrapped through its success /
data / response / error fields; any other result is the observation
itself. -/
def _execute_action {Ctx : Type} (tools : List (Str × ReActTool Ctx)) (jdump : JValue → Str)
    (action : Str) (action_input : JValue) (ctx : Ctx) : JValue :=
  match List.lookup action tools with
  | none =>
    .jstr ("Error: Unknown action ".data ++ [sqc] ++ action ++ [sqc] ++
           ". Available tools: ".data ++ pyReprStrList (tools.map Prod.fst))
  | some tool =>
    match tool (jdump action_input) ctx with
    | .error e => .jstr ("Error executing ".data ++ action ++ ": ".data ++ e)
    | .ok result =>
      match result with
      | .jobj fs =>
        if jTruthy ((List.lookup ("success".data) fs).getD .null) then
          (List.lookup ("data".data) fs).getD ((List.lookup ("response".data) fs).getD (.jobj fs))
        else
          .jstr ("Error: ".data ++
                 pyStrOfJ ((List.lookup ("error".data) fs).getD (.jstr ("Tool execution failed".data))))
      | r => r

/-- Kinds of trace steps. -/
inductive ReActStepType where
  | thought : ReActStepType
  | action : ReActStepType
  | observation : ReActStepType
  | final_answer : ReActStepType
deriving DecidableEq, BEq

/-- One step record of the reasoning trace. -/
structure ReActStep where
  step_number : Nat
  step_type : ReActStepType
  content : Str
  tool_used : Option Str := none
  tool_input : Option JValue := none
  tool_output : Option JValue := none

/-- Number of Thought steps in a step list; ReActTrace.add_step recomputes
the iteration counter as exactly this count. -/
def countThoughts (steps : List ReActStep) : Nat :=
  (steps.filter (fun s => s.step_type == ReActStepType.thought)).length

/-- The mutable reasoning trace of one run() call. -/
structure ReActTrace where
  query : Str
  steps : List ReActStep := []
  final_answer : Option Str := none
  success : Bool := false
  max_iterations : Nat := 10
  current_iteration : Nat := 0

/-- ReActTrace.add_step: append and recompute the thought count. -/
def add_step (t : ReActTrace) (s : ReActStep) : ReActTrace :=
  let steps := t.steps ++ [s]
  { t with steps := steps, current_iteration := countThoughts steps }

/-- The dict returned by ReActAgent.run (reasoning_trace is kept as the
step list plus the scalar fields already present here; tools_used models
list(set(...)) up to the unspecified ordering of a Python set). -/
structure RunResult where
  query : Str
  final_answer : Option Str
  success : Bool
  iterations : Nat
  steps : List ReActStep
  tools_used : List Str

/-- The fixed message installed when the iteration cap is reached. -/
def maxIterMsg : Str := "Maximum reasoning iterations reached. Could not complete task.".data

/-- The Thought step appended at the top of each loop pass (its number is
the pre-append iteration counter, as the source evaluates the argument
before add_step recomputes the counter). -/
def thoughtStepOf (t : ReActTrace) (content : Str) : ReActStep :=
  { step_number := t.current_iteration, step_type := .thought, content := content }

/-- The Action step appended after dispatch, carrying the f-string style
rendering of the call. -/
def actionStepOf (t1 : ReActTrace) (action : Str) (inp : JValue) : ReActStep :=
  { step_number := t1.current_iteration, step_type := .action,
    content := action ++ [Char.ofNat 40] ++ pyReprJ inp ++ [Char.ofNat 41],
    tool_used := some action, tool_input := some inp }

/-- The Observation step appended after dispatch, with the observation
truncated to 500 characters in the content and kept whole in
tool_output. -/
def obsStepOf (t2 : ReActTrace) (obs : JValue) : ReActStep :=
  { step_number := t2.current_iteration, step_type := .observation,
    content := (pyStrOfJ obs).take 500, tool_output := some obs }

/-- The while loop of ReActAgent.run, with fuel equal to the remaining
possible iterations: every pass through the body appends exactly one
Thought step, so current_iteration rises by one per pass and fuel
max_iterations from a fresh trace runs the body exactly as often as the
Python while loop does.  Each pass: generate and parse a step (the source
strips the LLM text before parsing), append the Thought, then either finish
or execute the action and append the Action and Observation steps. -/
def runAux {Ctx : Type} (jparse : Str → Option JValue) (jdump : JValue → Str)
    (llm : ReActTrace → Str) (tools : List (Str × ReActTool Ctx)) (ctx : Ctx)
    (max_iterations : Nat) : Nat → ReActTrace → ReActTrace
  | 0, t => t
  | fuel + 1, t =>
    if t.current_iteration < max_iterations then
      let p := _parse_react_response jparse (pyStrip (llm t))
      let t1 := add_step t (thoughtStepOf t p.1)
      if p.2.1 == "finish".data then
        let fa := pyStrOfJ ((jObjGet p.2.2 ("answer".data)).getD (.jstr []))
        let t2 := { t1 with final_answer := some fa, success := true }
        add_step t2 { step_number := t2.current_iteration, step_type := .final_answer,
                      content := fa, tool_used := some ("finish".data) }
      else
        let obs := _execute_action tools jdump p.2.1 p.2.2 ctx
        let t2 := add_step t1 (actionStepOf t1 p.2.1 p.2.2)
        let t3 := add_step t2 (obsStepOf t2 obs)
        runAux jparse jdump llm tools ctx max_iterations fuel t3
    else t

/-- ReActAgent.run: fresh trace, the while loop, then the max-iterations
fixup installing the fixed message when the cap was reached without
success.  (The enclosing try/except of the source only fires when the loop
body itself raises; every operation of the body is total here, and tool
exceptions are already converted inside _execute_action.) -/
def run {Ctx : Type} (jparse : Str → Option JValue) (jdump : JValue → Str)
    (llm : ReActTrace → Str) (tools : List (Str × ReActTool Ctx)) (ctx : Ctx)
    (query : Str) (max_iterations : Nat) : RunResult :=
  let t0 : ReActTrace := { query := query, max_iterations := max_iterations }
  let t1 := runAux jparse jdump llm tools ctx max_iterations max_iterations t0
  let t2 :=
    if max_iterations ≤ t1.current_iteration && !t1.success then
      { t1 with final_answer := some maxIterMsg, success := false }
    else t1
  { query := query, final_answer := t2.final_answer, success := t2.success,
    iterations := t2.current_iteration, steps := t2.steps,
    tools_used := ((t2.steps.filterMap ReActStep.tool_used).filter
      (fun n => !n.isEmpty && !(n == "finish".data))).eraseDups }

/-- Concrete Individual rate sheet used by witnesses: the end-to-end
scenario table with band 26-35 and column 5L priced 6887. -/
def dfIndividual : DF :=
  { cols := ["Age Band".data, "2L".data, "5L".data, "10L".data],
    rows := [ { ageBand := "18-25".data,
                cells := [("2L".data, some 4000), ("5L".data, some 5500), ("10L".data, some 8000)] },
              { ageBand := "26-35".data,
                cells := [("2L".data, some 5000), ("5L".data, some 6887), ("10L".data, some 9500)] } ] }

/-- Concrete one-sheet workbook used by witnesses. -/
def wbIndividual : Workbook := [("Individual".data, dfIndividual)]

/-- Concrete json parser stub for witnesses: fails on every input (as
json.loads does on the non-JSON strings these witnesses feed it). -/
def jNone : Str → Option JValue := fun _ => none

/-- Concrete json parser stub for witnesses: succeeds exactly on the empty
object literal, as json.loads does on the strings these witnesses feed
it. -/
def jEmptyObj : Str → Option JValue :=
  fun s => if s = "\x7b\x7d".data then some (.jobj []) else none

/-- Concrete json parser stub for witnesses: succeeds exactly on the inline
payload "ok" used by the parse-fallback witness. -/
def jOk : Str → Option JValue :=
  fun s => if s = "ok".data then some (.jstr ("k".data)) else none

/-- Concrete json printer stub for witnesses. -/
def jDumpStub : JValue → Str := fun _ => "\x7b\x7d".data

/-- Concrete reasoner stub for witnesses: always proposes tool t1 and never
finishes. -/
def llmT1 : ReActTrace → Str := fun _ => "Thought: hi\nAction: t1\nAction Input: \x7b\x7d".data

/-- Concrete tool stub for witnesses: always raises with message boom. -/
def toolBoom : ReActTool Unit := fun _ _ => .error ("boom".data)

/-- Success tester for an Except-valued calculator result, used by a
witness statement. -/
def isOkE (x : Except PyErr CalcResult) : Bool :=
  match x with
  | .ok _ => true
  | .error _ => false

theorem isSubStr_of_prefix_suffix {needle u s : Str} (h : needle.isPrefixOf u = true)
    (hs : u <:+ s) : isSubStr needle s = true := by
  induction s with
  | nil =>
    have hu : u = [] := List.suffix_nil.mp hs
    subst hu; simpa [isSubStr] using h
  | cons c rest ih =>
    rcases List.suffix_cons_iff.mp hs with h1 | h2
    · subst h1; simp [isSubStr, h]
    · simp [isSubStr, ih h2]

theorem dropSpacesRe_suffix (s : Str) : dropSpacesRe s <:+ s := List.dropWhile_suffix _

theorem dayHyphenDrop_suffix (s : Str) : dayHyphenDrop s <:+ s := by
  unfold dayHyphenDrop
  split
  · exact List.suffix_cons _ _
  · exact List.suffix_rfl

theorem dayMid_suffix (r : Str) : dayMid r <:+ r :=
  ((dropSpacesRe_suffix _).trans (dayHyphenDrop_suffix _)).trans (dropSpacesRe_suffix _)

theorem matchDaysAt_substring (s : Str) (r : Nat × Nat) (h : matchDaysAt s = some r) :
    isSubStr dayLit s = true := by
  unfold matchDaysAt at h
  split at h
  · exact absurd h (by simp)
  · rename_i pr d1 d2 hne heq
    split at h
    · rename_i hpre
      refine isSubStr_of_prefix_suffix hpre ?_
      have h2 : d2 = s.dropWhile Char.isDigit := by
        rw [show spanDigits s = (s.takeWhile Char.isDigit, s.dropWhile Char.isDigit) from rfl] at heq
        exact (Prod.ext_iff.mp heq.symm).2
      have c1 : dropSpacesRe (spanDigits (dayMid d2)).2 <:+ dayMid d2 :=
        (dropSpacesRe_suffix _).trans (List.dropWhile_suffix _)
      have c2 : dayMid d2 <:+ d2 := dayMid_suffix d2
      have c3 : d2 <:+ s := h2 ▸ List.dropWhile_suffix _
      exact (c1.trans c2).trans c3
    · exact absurd h (by simp)

theorem scanDays_substring : ∀ (s : Str) (r : Nat × Nat), scanDays s = some r → isSubStr dayLit s = true := by
  intro s
  induction s with
  | nil => intro r h; simp [scanDays] at h
  | cons c rest ih =>
    intro r h
    unfold scanDays at h
    split at h
    · rename_i heq
      obtain rfl := Option.some.inj h
      exact matchDaysAt_substring _ _ heq
    · simp [isSubStr, ih r h]

theorem parse_band_day_eq (s : Str) (d1 d2 : Nat) (h : scanDays (normBand s) = some (d1, d2)) :
    parse_age_band s = some (d1 / 365, some (d2 / 365)) := by
  have hsub : isSubStr dayLit (normBand s) = true := scanDays_substring _ _ h
  simp [parse_age_band, hsub, h]

theorem parse_band_years_of_scanDays_none (s : Str) (h : scanDays (normBand s) = none) :
    parse_age_band s = parseYears (normBand s) := by
  by_cases hsub : isSubStr dayLit (normBand s) = true
  · simp [parse_age_band, hsub, h]
  · have hsub' : isSubStr dayLit (normBand s) = false := by simpa using hsub
    simp [parse_age_band, hsub']

theorem parse_band_years_of_no_day (s : Str) (h : isSubStr dayLit (normBand s) = false) :
    parse_age_band s = parseYears (normBand s) := by
  simp [parse_age_band, h]

theorem parseRangeOrExact_some_upper (t : Str) (l u : Nat)
    (h : parseRangeOrExact t = some (l, some u)) :
    matchRangeAt t = some (l, u) ∨ (matchRangeAt t = none ∧ l = u) := by
  unfold parseRangeOrExact at h
  split at h
  · rename_i a b heq
    obtain ⟨h1, h2⟩ := Prod.ext_iff.mp (Option.some.inj h)
    obtain rfl := h1
    obtain rfl := Option.some.inj h2
    exact Or.inl heq
  · rename_i hrng
    split at h
    · rename_i n heq
      obtain ⟨h1, h2⟩ := Prod.ext_iff.mp (Option.some.inj h)
      obtain rfl := h1
      obtain rfl := Option.some.inj h2
      exact Or.inr ⟨(by simpa using hrng), rfl⟩
    · cases h

theorem parseYears_some_upper (t : Str) (l u : Nat) (h : parseYears t = some (l, some u)) :
    matchRangeAt t = some (l, u) ∨ (matchRangeAt t = none ∧ l = u) := by
  unfold parseYears at h
  split at h
  · split at h
    · rename_i n heq
      obtain ⟨-, h2⟩ := Prod.ext_iff.mp (Option.some.inj h)
      simp at h2
    · exact parseRangeOrExact_some_upper t l u h
  · exact parseRangeOrExact_some_upper t l u h

theorem parseYears_gt (t : Str) (n : Nat) (hgt : t.contains '>' = true)
    (hplus : t.contains '+' = false) (hn : firstNatScan t = some n) :
    parseYears t = some (n + 1, none) := by
  have h1 : '>' ∈ t := by simpa using hgt
  have h2 : '+' ∉ t := by simpa using hplus
  simp [parseYears, hn, h1, h2]

/-- Claim C8: for every age-band label matching the day pattern,
parse_age_band converts each numeric day bound to years by integer division
by 365; so any label whose day values are below 365 parses to (0, 0), and a
single day value (where the matcher sets the upper bound equal to the lower)
yields equal bounds. -/
theorem parse_age_band_day_division (s : Str) (d1 d2 : Nat)
    (h : scanDays (normBand s) = some (d1, d2)) :
    parse_age_band s = some (d1 / 365, some (d2 / 365)) ∧
    (d1 < 365 → d2 < 365 → parse_age_band s = some (0, some 0)) ∧
    (d2 = d1 → parse_age_band s = some (d1 / 365, some (d1 / 365))) := by
  have h1 := parse_band_day_eq s d1 d2 h
  refine ⟨h1, ?_, ?_⟩
  · intro ha hb
    rw [h1, Nat.div_eq_of_lt ha, Nat.div_eq_of_lt hb]
  · intro hEq
    rw [h1, hEq]

/-- Witness for C8 at the spec examples: "91 days" yields (0, 0) and
"400-500 days" yields (1, 1). -/
theorem parse_age_band_day_division_witness :
    parse_age_band ("91 days".data) = some (0, some 0) ∧
    parse_age_band ("400-500 days".data) = some (1, some 1) := by
  constructor
  · exact (parse_age_band_day_division ("91 days".data) 91 91 (by decide)).2.1
      (by decide) (by decide)
  · have h := (parse_age_band_day_division ("400-500 days".data) 400 500 (by decide)).1
    simpa using h

/-- Claim C9 (amended): parsing is deterministic, and the parsed result
satisfies lower <= upper whenever upper is not null provided the numeric
bounds of the label are non-decreasing (first day bound at most the second,
or first range bound at most the second); a label carrying a single number
gives lower = upper.  Neither the day branch nor the year range branch
checks the order of its bounds, so the unamended inequality fails on
descending labels in both: "50-20" and "800-400 days". -/
theorem parse_age_band_deterministic_bounds (s : Str) (l u : Nat)
    (h : parse_age_band s = some (l, some u)) :
    (∀ s2, s2 = s → parse_age_band s2 = parse_age_band s) ∧
    (∀ d1 d2, scanDays (normBand s) = some (d1, d2) → d1 ≤ d2 → l ≤ u) ∧
    (scanDays (normBand s) = none →
      ∀ a b, matchRangeAt (normBand s) = some (a, b) → a ≤ b → l ≤ u) ∧
    (scanDays (normBand s) = none → matchRangeAt (normBand s) = none → l = u) := by
  refine ⟨fun s2 h2 => by rw [h2], ?_, ?_, ?_⟩
  · intro d1 d2 hd hle
    have hday := parse_band_day_eq s d1 d2 hd
    rw [h] at hday
    obtain ⟨h1, h2⟩ := Prod.ext_iff.mp (Option.some.inj hday)
    obtain rfl := h1
    obtain rfl := Option.some.inj h2
    exact Nat.div_le_div_right hle
  · intro hd a b hr hab
    have hy := parse_band_years_of_scanDays_none s hd
    rw [h] at hy
    rcases parseYears_some_upper _ _ _ hy.symm with hcase | ⟨hnone, -⟩
    · rw [hr] at hcase
      obtain ⟨h1, h2⟩ := Prod.ext_iff.mp (Option.some.inj hcase)
      obtain rfl := h1
      obtain rfl := h2
      exact hab
    · rw [hnone] at hr; cases hr
  · intro hd hr
    have hy := parse_band_years_of_scanDays_none s hd
    rw [h] at hy
    rcases parseYears_some_upper _ _ _ hy.symm with hcase | ⟨-, hlu⟩
    · rw [hr] at hcase; cases hcase
    · exact hlu

/-- Witness for C9 at the label "18-25". -/
theorem parse_age_band_deterministic_bounds_witness :
    parse_age_band ("18-25".data) = some (18, some 25) ∧ (18 : Nat) ≤ 25 := by
  have h : parse_age_band ("18-25".data) = some (18, some 25) := by decide
  exact ⟨h, (parse_age_band_deterministic_bounds ("18-25".data) 18 25 h).2.2.1
    (by decide) 18 25 (by decide) (by decide)⟩

/-- Counterexample to C9 as stated: the accepted range label "50-20" parses
to lower 50 and upper 20, and the accepted day label "800-400 days" parses
to lower 2 and upper 1; both violate lower <= upper, so neither the year
range branch nor the day branch checks the order of its bounds. -/
theorem parse_age_band_le_counterexample :
    (parse_age_band ("50-20".data) = some (50, some 20) ∧ ¬((50 : Nat) ≤ 20)) ∧
    (parse_age_band ("800-400 days".data) = some (2, some 1) ∧ ¬((2 : Nat) ≤ 1)) :=
  ⟨⟨by decide, by decide⟩, ⟨by decide, by decide⟩⟩

/-- Claim C10 (amended): for every label containing a greater-than sign but
no plus sign, whose day branch does not fire, and containing an integer,
parse_age_band returns the successor of the first integer with an open upper
bound; so a label written with >= excludes the written age itself.  (A label
whose day pattern matches, such as "> 90 days", is parsed by the day rule
instead.) -/
theorem parse_age_band_gt_exclusive (s : Str) (n : Nat)
    (hday : isSubStr dayLit (normBand s) = false ∨ scanDays (normBand s) = none)
    (hgt : (normBand s).contains '>' = true)
    (hplus : (normBand s).contains '+' = false)
    (hn : firstNatScan (normBand s) = some n) :
    parse_age_band s = some (n + 1, none) := by
  have hy : parse_age_band s = parseYears (normBand s) := by
    rcases hday with hff | hnn
    · exact parse_band_years_of_no_day s hff
    · exact parse_band_years_of_scanDays_none s hnn
  rw [hy]
  exact parseYears_gt _ n hgt hplus hn

/-- Witness for C10 at the labels ">= 76" and "> 75". -/
theorem parse_age_band_gt_exclusive_witness :
    parse_age_band (">= 76".data) = some (77, none) ∧
    parse_age_band ("> 75".data) = some (76, none) :=
  ⟨parse_age_band_gt_exclusive (">= 76".data) 76 (Or.inl (by decide)) (by decide) (by decide)
     (by decide),
   parse_age_band_gt_exclusive ("> 75".data) 75 (Or.inl (by decide)) (by decide) (by decide)
     (by decide)⟩

/-- Counterexample to C10 as stated: "> 90 days" contains a greater-than
sign and no plus sign, yet parses to (0, 0) through the day branch rather
than to (91, open). -/
theorem parse_age_band_gt_counterexample :
    ("> 90 days".data).contains '>' = true ∧ ("> 90 days".data).contains '+' = false ∧
    parse_age_band ("> 90 days".data) = some (0, some 0) ∧
    parse_age_band ("> 90 days".data) ≠ some (90 + 1, none) :=
  ⟨by decide, by decide, by decide, by decide⟩

theorem findIdxO_some_spec {α : Type} (p : α → Bool) :
    ∀ (l : List α) (i : Nat), findIdxO p l = some i →
      ∃ x, l.get? i = some x ∧ p x = true ∧ ∀ j y, j < i → l.get? j = some y → p y = false := by
  intro l
  induction l with
  | nil => intro i h; simp [findIdxO] at h
  | cons a t ih =>
    intro i h
    by_cases hpa : p a = true
    · simp only [findIdxO, hpa, if_true] at h
      obtain rfl := Option.some.inj h
      exact ⟨a, rfl, hpa, fun j y hj => absurd hj (Nat.not_lt_zero j)⟩
    · have hpa' : p a = false := by simpa using hpa
      simp only [findIdxO, hpa', Bool.false_eq_true, if_false, Option.map_eq_some'] at h
      obtain ⟨i', hi', rfl⟩ := h
      obtain ⟨x, hx, hpx, hmin⟩ := ih i' hi'
      refine ⟨x, by simpa using hx, hpx, ?_⟩
      intro j y hj hy
      cases j with
      | zero =>
        simp only [List.get?_cons_zero, Option.some.injEq] at hy
        subst hy; exact hpa'
      | succ k =>
        exact hmin k y (Nat.lt_of_succ_lt_succ hj) (by simpa using hy)

theorem findIdxO_eq_none_iff {α : Type} (p : α → Bool) :
    ∀ l : List α, findIdxO p l = none ↔ ∀ x ∈ l, p x = false := by
  intro l
  induction l with
  | nil => simp [findIdxO]
  | cons a t ih =>
    by_cases hpa : p a = true
    · simp [findIdxO, hpa]
    · have hpa' : p a = false := by simpa using hpa
      simp [findIdxO, hpa', ih]

theorem findIdxO_isSome_of_mem {α : Type} (p : α → Bool) :
    ∀ (l : List α) (x : α), x ∈ l → p x = true → ∃ i, findIdxO p l = some i := by
  intro l
  induction l with
  | nil => intro x hx; simp at hx
  | cons a t ih =>
    intro x hx hpx
    by_cases hpa : p a = true
    · exact ⟨0, by simp [findIdxO, hpa]⟩
    · have hpa' : p a = false := by simpa using hpa
      rcases List.mem_cons.mp hx with rfl | hmem
      · exact absurd hpx (by simp [hpa'])
      · obtain ⟨i, hi⟩ := ih x hmem hpx
        exact ⟨i + 1, by simp [findIdxO, hpa', hi]⟩

/-- Claim C3: find_age_band_row is a two-pass search returning the first
exact single-age row when one exists anywhere in the table, and only
otherwise the first row whose parsed band contains the age; rows that fail
to parse are skipped by both passes (they simply fail the pass
predicates). -/
theorem find_age_band_row_two_pass (rows : List Str) (age : Int) :
    ((∃ s ∈ rows, rowExact age s = true) →
      ∃ i s, find_age_band_row rows age = some i ∧ rows.get? i = some s ∧
        rowExact age s = true ∧
        ∀ j s2, j < i → rows.get? j = some s2 → rowExact age s2 = false) ∧
    ((∀ s ∈ rows, rowExact age s = false) → (∃ s ∈ rows, rowContainsAge age s = true) →
      ∃ i s, find_age_band_row rows age = some i ∧ rows.get? i = some s ∧
        rowContainsAge age s = true ∧
        ∀ j s2, j < i → rows.get? j = some s2 → rowContainsAge age s2 = false) := by
  constructor
  · rintro ⟨s, hmem, hex⟩
    obtain ⟨i, hi⟩ := findIdxO_isSome_of_mem (rowExact age) rows s hmem hex
    obtain ⟨x, hx, hpx, hmin⟩ := findIdxO_some_spec (rowExact age) rows i hi
    exact ⟨i, x, by simp [find_age_band_row, hi], hx, hpx, fun j s2 hj hs2 => hmin j s2 hj hs2⟩
  · rintro hall ⟨s, hmem, hcon⟩
    have hnone : findIdxO (rowExact age) rows = none := (findIdxO_eq_none_iff _ rows).mpr hall
    obtain ⟨i, hi⟩ := findIdxO_isSome_of_mem (rowContainsAge age) rows s hmem hcon
    obtain ⟨x, hx, hpx, hmin⟩ := findIdxO_some_spec (rowContainsAge age) rows i hi
    exact ⟨i, x, by simp [find_age_band_row, hnone, hi], hx, hpx,
      fun j s2 hj hs2 => hmin j s2 hj hs2⟩

/-- Witness for C3 at the mixed table of the spec: the table has the
overlapping band "26-35" before the exact row "30", and the exact row (index
1) wins for age 30. -/
theorem find_age_band_row_two_pass_witness :
    find_age_band_row ["26-35".data, "30".data] 30 = some 1 ∧
    rowExact 30 ("30".data) = true ∧ rowContainsAge 30 ("26-35".data) = true := by
  obtain ⟨i, s, hfind, hget, hex, -⟩ :=
    (find_age_band_row_two_pass ["26-35".data, "30".data] 30).1
      ⟨"30".data, by decide, by decide⟩
  refine ⟨?_, by decide, by decide⟩
  rcases i with _ | _ | k
  · have hs : s = "26-35".data := by simpa using hget.symm
    subst hs
    exact absurd hex (by decide)
  · exact hfind
  · simp at hget

theorem sorted_find?_min (t : Int) :
    ∀ l : List (Int × Str), List.Sorted siLe l →
      ∀ e, l.find? (fun e => decide (t < e.1)) = some e →
        ∀ q ∈ l, t < q.1 → e.1 ≤ q.1 := by
  intro l
  induction l with
  | nil => intro _ e h; cases h
  | cons a rest ih =>
    intro hs e hf q hq hlt
    by_cases hpa : t < a.1
    · rw [List.find?_cons_of_pos _ (by simpa using hpa)] at hf
      obtain rfl := Option.some.inj hf
      rcases List.mem_cons.mp hq with rfl | hqr
      · exact le_refl _
      · exact List.rel_of_sorted_cons hs q hqr
    · rw [List.find?_cons_of_neg _ (by simpa using hpa)] at hf
      rcases List.mem_cons.mp hq with rfl | hqr
      · exact absurd hlt hpa
      · exact ih hs.of_cons e hf q hqr hlt

theorem getLast?_mem_own {α : Type} : ∀ (l : List α) (e : α), l.getLast? = some e → e ∈ l := by
  intro l
  induction l with
  | nil => intro e h; cases h
  | cons a rest ih =>
    intro e h
    cases rest with
    | nil =>
      obtain rfl : a = e := by simpa using h
      exact List.mem_cons_self _ _
    | cons b bs =>
      have h' : (b :: bs).getLast? = some e := by
        simpa [List.getLast?_cons_cons] using h
      exact List.mem_cons_of_mem a (ih e h')

theorem sorted_getLast?_max :
    ∀ l : List (Int × Str), List.Sorted siLe l →
      ∀ e, l.getLast? = some e → ∀ q ∈ l, q.1 ≤ e.1 := by
  intro l
  induction l with
  | nil => intro _ e h; cases h
  | cons a rest ih =>
    intro hs e hl q hq
    cases rest with
    | nil =>
      have hae : a = e := by simpa using hl
      subst hae
      have hqa : q = a := by simpa using hq
      subst hqa
      exact le_refl _
    | cons b bs =>
      have hl' : (b :: bs).getLast? = some e := by
        simpa [List.getLast?_cons_cons] using hl
      rcases List.mem_cons.mp hq with rfl | hqr
      · exact List.rel_of_sorted_cons hs e (getLast?_mem_own _ e hl')
      · exact ih hs.of_cons e hl' q hqr

/-- Claim C1: the sum-insured column resolution follows the ceiling rule:
an exactly matching parseable column is returned (never a higher one); else
the column with the smallest parsed value strictly above the target; else
the column with the highest parsed value; and the result is none exactly
when no column label other than "Age Band" parses as an amount. -/
theorem find_sum_insured_column_ceiling (cols : List Str) (t : Int) :
    (_find_sum_insured_column cols t = none ↔ siCandidates cols = []) ∧
    ((∃ p ∈ siCandidates cols, p.1 = t) →
      ∃ c, _find_sum_insured_column cols t = some c ∧ (t, c) ∈ siCandidates cols) ∧
    ((∀ p ∈ siCandidates cols, p.1 ≠ t) → (∃ p ∈ siCandidates cols, t < p.1) →
      ∃ v c, _find_sum_insured_column cols t = some c ∧ (v, c) ∈ siCandidates cols ∧ t < v ∧
        ∀ q ∈ siCandidates cols, t < q.1 → v ≤ q.1) ∧
    (siCandidates cols ≠ [] → (∀ p ∈ siCandidates cols, p.1 ≠ t) →
      (∀ p ∈ siCandidates cols, ¬(t < p.1)) →
      ∃ v c, _find_sum_insured_column cols t = some c ∧ (v, c) ∈ siCandidates cols ∧
        ∀ q ∈ siCandidates cols, q.1 ≤ v) := by
  rcases hc : siCandidates cols with _ | ⟨c0, cs⟩
  · have hres : _find_sum_insured_column cols t = none := by
      unfold _find_sum_insured_column
      rw [hc]
    refine ⟨by simp [hres], ?_, ?_, ?_⟩
    · rintro ⟨p, hp, -⟩
      exact absurd hp (List.not_mem_nil p)
    · rintro - ⟨p, hp, -⟩
      exact absurd hp (List.not_mem_nil p)
    · intro hne
      exact absurd rfl hne
  · have hperm : List.Perm ((c0 :: cs).insertionSort siLe) (c0 :: cs) :=
      List.perm_insertionSort siLe _
    have hsort := List.sorted_insertionSort siLe (c0 :: cs)
    have hsne : ((c0 :: cs).insertionSort siLe) ≠ [] := by
      intro h0
      have hlen := hperm.length_eq
      rw [h0] at hlen
      simp at hlen
    rcases hfe : ((c0 :: cs).insertionSort siLe).find? (fun e => e.1 == t) with _ | e1
    · rcases hfc : ((c0 :: cs).insertionSort siLe).find? (fun e => decide (t < e.1)) with _ | e2
      · obtain ⟨e3, hfl⟩ := Option.isSome_iff_exists.mp (List.getLast?_isSome.mpr hsne)
        have hres : _find_sum_insured_column cols t = some e3.2 := by
          unfold _find_sum_insured_column
          rw [hc]
          simp only [hfe, hfc, hfl, Option.map_some']
        refine ⟨by simp [hres], ?_, ?_, ?_⟩
        · rintro ⟨p, hp, hpt⟩
          have hps : p ∈ (c0 :: cs).insertionSort siLe := hperm.mem_iff.mpr hp
          have := List.find?_eq_none.mp hfe p hps
          simp [hpt] at this
        · rintro - ⟨p, hp, hpt⟩
          have hps : p ∈ (c0 :: cs).insertionSort siLe := hperm.mem_iff.mpr hp
          have := List.find?_eq_none.mp hfc p hps
          simp [hpt] at this
        · rintro - - -
          refine ⟨e3.1, e3.2, hres, ?_, ?_⟩
          · have h3 : e3 ∈ (c0 :: cs).insertionSort siLe := getLast?_mem_own _ e3 hfl
            rw [Prod.mk.eta]
            exact hperm.subset h3
          · intro q hq
            exact sorted_getLast?_max _ hsort e3 hfl q (hperm.mem_iff.mpr hq)
      · have hres : _find_sum_insured_column cols t = some e2.2 := by
          unfold _find_sum_insured_column
          rw [hc]
          simp only [hfe, hfc]
        have hlt : t < e2.1 := by simpa using List.find?_some hfc
        have hmem2 : e2 ∈ c0 :: cs := hperm.subset (List.mem_of_find?_eq_some hfc)
        refine ⟨by simp [hres], ?_, ?_, ?_⟩
        · rintro ⟨p, hp, hpt⟩
          have hps : p ∈ (c0 :: cs).insertionSort siLe := hperm.mem_iff.mpr hp
          have := List.find?_eq_none.mp hfe p hps
          simp [hpt] at this
        · rintro - -
          refine ⟨e2.1, e2.2, hres, ?_, hlt, ?_⟩
          · rw [Prod.mk.eta]
            exact hmem2
          · intro q hq hqt
            exact sorted_find?_min t _ hsort e2 hfc q (hperm.mem_iff.mpr hq) hqt
        · rintro - - hnone
          exact absurd hlt (hnone e2 hmem2)
    · have hres : _find_sum_insured_column cols t = some e1.2 := by
        unfold _find_sum_insured_column
        rw [hc]
        simp only [hfe]
      have he1t : e1.1 = t := by simpa using List.find?_some hfe
      have hmem1 : e1 ∈ c0 :: cs := hperm.subset (List.mem_of_find?_eq_some hfe)
      refine ⟨by simp [hres], ?_, ?_, ?_⟩
      · rintro -
        refine ⟨e1.2, hres, ?_⟩
        have heq : (t, e1.2) = e1 := by rw [← he1t]
        rw [heq]
        exact hmem1
      · rintro hno -
        exact absurd he1t (hno e1 hmem1)
      · rintro - hno -
        exact absurd he1t (hno e1 hmem1)

/-- Witness for C1: requesting 300000 against columns 2L, 5L, 10L picks the
ceiling column 5L, whose parsed value 500000 is the smallest one above the
target. -/
theorem find_sum_insured_column_ceiling_witness :
    _find_sum_insured_column ["Age Band".data, "2L".data, "5L".data, "10L".data] 300000 =
      some ("5L".data) ∧ (300000 : Int) < 500000 := by
  obtain ⟨v, c, hres, hmem, hv, hmin⟩ :=
    (find_sum_insured_column_ceiling
      ["Age Band".data, "2L".data, "5L".data, "10L".data] 300000).2.2.1
      (by decide) ⟨(500000, "5L".data), by decide, by decide⟩
  have hcand : siCandidates ["Age Band".data, "2L".data, "5L".data, "10L".data] =
      [(200000, "2L".data), (500000, "5L".data), (1000000, "10L".data)] := by decide
  rw [hcand] at hmem hmin
  have h5 : v ≤ 500000 := hmin (500000, "5L".data) (by simp) (by decide)
  simp only [List.mem_cons, List.not_mem_nil, or_false] at hmem
  rcases hmem with h | h | h
  · obtain ⟨h1, -⟩ := Prod.ext_iff.mp h
    subst h1
    exact absurd hv (by decide)
  · obtain ⟨-, h2⟩ := Prod.ext_iff.mp h
    subst h2
    exact ⟨hres, by decide⟩
  · obtain ⟨h1, -⟩ := Prod.ext_iff.mp h
    subst h1
    exact absurd h5 (by decide)

/-- Claim C7: for every successful premium result (one whose dict has no
error key), the GST fields satisfy gst = gross * rate and
total = gross + gst, with gst = 0 and total = gross when GST is disabled;
the rate is fixed at construction with Python default 0.18. -/
theorem premium_gst_invariant (pc : PremiumCalc) (wb : Workbook) (members : List Member)
    (si : Int) (inc : Bool) (nA nC eldest : Int) :
    ((calculate_individual_premium pc wb members si inc).error = none →
      ∃ g : ℚ, (calculate_individual_premium pc wb members si inc).gross_premium = some g ∧
        (calculate_individual_premium pc wb members si inc).gst_amount =
          some (if inc then g * pc.gst_rate else 0) ∧
        (calculate_individual_premium pc wb members si inc).total_premium =
          some (g + (if inc then g * pc.gst_rate else 0)) ∧
        (inc = false →
          (calculate_individual_premium pc wb members si inc).gst_amount = some 0 ∧
          (calculate_individual_premium pc wb members si inc).total_premium = some g)) ∧
    ((calculate_family_floater_premium pc wb nA nC eldest si inc).error = none →
      ∃ g : ℚ, (calculate_family_floater_premium pc wb nA nC eldest si inc).gross_premium = some g ∧
        (calculate_family_floater_premium pc wb nA nC eldest si inc).gst_amount =
          some (if inc then g * pc.gst_rate else 0) ∧
        (calculate_family_floater_premium pc wb nA nC eldest si inc).total_premium =
          some (g + (if inc then g * pc.gst_rate else 0)) ∧
        (inc = false →
          (calculate_family_floater_premium pc wb nA nC eldest si inc).gst_amount = some 0 ∧
          (calculate_family_floater_premium pc wb nA nC eldest si inc).total_premium = some g)) ∧
    ({} : PremiumCalc).gst_rate = 18 / 100 := by
  refine ⟨?_, ?_, rfl⟩
  · intro herr
    by_cases he : members.isEmpty = true
    · exfalso
      simp [calculate_individual_premium, he] at herr
    · have hne : members.isEmpty = false := by simpa using he
      refine ⟨(members.foldl (indivStep wb si) ([], 0)).2, ?_, ?_, ?_, ?_⟩
      · simp [calculate_individual_premium, hne]
      · simp [calculate_individual_premium, hne]
      · simp [calculate_individual_premium, hne]
      · rintro rfl
        constructor
        · simp [calculate_individual_premium, hne]
        · simp [calculate_individual_premium, hne]
  · intro herr
    rcases hs : ffSheetName nA nC with _ | sheet
    · exfalso
      simp [calculate_family_floater_premium, hs] at herr
    · rcases hl : List.lookup sheet wb with _ | df
      · exfalso
        simp [calculate_family_floater_premium, hs, hl] at herr
      · rcases hp : _lookup_premium wb sheet eldest si with _ | gross
        · exfalso
          simp [calculate_family_floater_premium, hs, hl, hp] at herr
        · refine ⟨gross, ?_, ?_, ?_, ?_⟩
          · simp [calculate_family_floater_premium, hs, hl, hp]
          · simp [calculate_family_floater_premium, hs, hl, hp]
          · simp [calculate_family_floater_premium, hs, hl, hp]
          · rintro rfl
            constructor
            · simp [calculate_family_floater_premium, hs, hl, hp]
            · simp [calculate_family_floater_premium, hs, hl, hp]

/-- Witness for C7 at the end-to-end scenario of the spec: one member aged
30, sum insured 500000, rate table pricing 6887 at 5L, GST at the default
rate, total 6887 * 1.18 = 8126.66. -/
theorem premium_gst_invariant_witness :
    (calculate_individual_premium {} wbIndividual [{ age := some 30 }] 500000 true).error = none ∧
    (calculate_individual_premium {} wbIndividual [{ age := some 30 }] 500000 true).total_premium =
      some ((0 + 6887 : ℚ) + (0 + 6887 : ℚ) * (18 / 100)) ∧
    ((0 + 6887 : ℚ) + (0 + 6887 : ℚ) * (18 / 100)) = 8126.66 := by
  obtain ⟨g, hg, hgst, htot, -⟩ :=
    (premium_gst_invariant {} wbIndividual [{ age := some 30 }] 500000 true 0 0 0).1 rfl
  have hg0 : (calculate_individual_premium {} wbIndividual
      [{ age := some 30 }] 500000 true).gross_premium = some ((0 : ℚ) + 6887) := rfl
  rw [hg] at hg0
  have hgeq := Option.some.inj hg0
  subst hgeq
  have hrate : ({} : PremiumCalc).gst_rate = 18 / 100 := rfl
  rw [hrate] at htot
  refine ⟨rfl, ?_, by norm_num⟩
  rw [htot]
  norm_num

theorem collectAges_none : ∀ l : List Member, collectAges l = none → ∃ m ∈ l, m.age = none := by
  intro l
  induction l with
  | nil => intro h; cases h
  | cons a t ih =>
    intro h
    cases ha : a.age with
    | none => exact ⟨a, List.mem_cons_self _ _, ha⟩
    | some v =>
      cases ht : collectAges t with
      | none =>
        obtain ⟨m, hm, hm2⟩ := ih ht
        exact ⟨m, List.mem_cons_of_mem _ hm, hm2⟩
      | some vs =>
        unfold collectAges at h
        rw [ha, ht] at h
        cases h

theorem collectAges_some : ∀ l : List Member, (∀ m ∈ l, m.age.isSome = true) →
    ∃ vs, collectAges l = some vs := by
  intro l
  induction l with
  | nil => intro _; exact ⟨[], rfl⟩
  | cons a t ih =>
    intro hall
    obtain ⟨v, hv⟩ := Option.isSome_iff_exists.mp (hall a (List.mem_cons_self _ _))
    obtain ⟨vs, hvs⟩ := ih (fun m hm => hall m (List.mem_cons_of_mem _ hm))
    refine ⟨v :: vs, ?_⟩
    unfold collectAges
    rw [hv, hvs]

/-- Claim C4 (amended): calculate_premium reports failures through an error
key in a returned dict and lets no exception escape, except on one path:
for family_floater with a nonempty members list and both counts supplied
explicitly, a member without an age raises KeyError from the eldest-age
comprehension (outside this embedding, whose ages are integers, non-integer
ages can also raise TypeError inside the row search).  The first conjunct
characterises the exception case exactly, the second yields a result dict
whenever every member carries an age, the third the unknown-policy error
dict. -/
theorem calculate_premium_error_handling (pc : PremiumCalc) (wb : Workbook) (policy : Str)
    (members : Option (List Member)) (nA nC : Option Int) (si : Int) (inc : Bool) :
    (∀ e, calculate_premium pc wb policy members nA nC si inc = .error e →
      e = .keyError ∧ policy = "family_floater".data ∧ members.getD [] ≠ [] ∧
      nA.isSome = true ∧ nC.isSome = true ∧ ∃ m ∈ members.getD [], m.age = none) ∧
    ((∀ m ∈ members.getD [], m.age.isSome = true) →
      ∃ r, calculate_premium pc wb policy members nA nC si inc = .ok r) ∧
    (policy ≠ "individual".data → policy ≠ "family_floater".data →
      ∃ r, calculate_premium pc wb policy members nA nC si inc = .ok r ∧
        r.error.isSome = true) := by
  by_cases hpi : policy = "individual".data
  · refine ⟨?_, ?_, ?_⟩
    · intro e h
      simp [calculate_premium, hpi] at h
    · intro _
      exact ⟨_, by simp [calculate_premium, hpi]; rfl⟩
    · intro h1 _
      exact absurd hpi h1
  · by_cases hpf : policy = "family_floater".data
    · by_cases hg : (!(members.getD []).isEmpty && (nA.isNone || nC.isNone)) = true
      · refine ⟨?_, ?_, ?_⟩
        · intro e h
          simp [calculate_premium, hpi, hpf, hg] at h
        · intro _
          exact ⟨_, by simp [calculate_premium, hpi, hpf, hg]; rfl⟩
        · intro _ h2
          exact absurd hpf h2
      · have hg' : (!(members.getD []).isEmpty && (nA.isNone || nC.isNone)) = false :=
          Bool.eq_false_iff.mpr hg
        rcases hm : members.getD [] with _ | ⟨m0, rest⟩
        · refine ⟨?_, ?_, ?_⟩
          · intro e h
            simp [calculate_premium, hpi, hpf, hg', hm] at h
          · intro _
            exact ⟨_, by simp [calculate_premium, hpi, hpf, hg', hm]; rfl⟩
          · intro _ h2
            exact absurd hpf h2
        · have hcounts : nA.isSome = true ∧ nC.isSome = true := by
            rw [hm] at hg'
            simpa using hg'
          have hnas : nA.isSome = true := hcounts.1
          have hncs : nC.isSome = true := hcounts.2
          have hAne : nA ≠ none := Option.ne_none_iff_isSome.mpr hnas
          have hCne : nC ≠ none := Option.ne_none_iff_isSome.mpr hncs
          rcases hage : m0.age with _ | a0
          · refine ⟨?_, ?_, ?_⟩
            · intro e _
              exact ⟨by cases e; rfl, hpf, by simp, hnas, hncs,
                ⟨m0, List.mem_cons_self _ _, hage⟩⟩
            · intro hall
              have := hall m0 (List.mem_cons_self _ _)
              rw [hage] at this
              simp at this
            · intro _ h2
              exact absurd hpf h2
          · rcases hca : collectAges rest with _ | ages
            · refine ⟨?_, ?_, ?_⟩
              · intro e _
                obtain ⟨m, hmm, hmnone⟩ := collectAges_none rest hca
                exact ⟨by cases e; rfl, hpf, by simp, hnas, hncs,
                  ⟨m, List.mem_cons_of_mem _ hmm, hmnone⟩⟩
              · intro hall
                obtain ⟨m, hmm, hmnone⟩ := collectAges_none rest hca
                have := hall m (List.mem_cons_of_mem _ hmm)
                rw [hmnone] at this
                simp at this
              · intro _ h2
                exact absurd hpf h2
            · have hok2 : calculate_premium pc wb policy members nA nC si inc =
                  .ok (calculate_family_floater_premium pc wb (nA.getD 0) (nC.getD 0)
                        (maxIntList a0 ages) si inc) := by
                simp [calculate_premium, hpi, hpf, hm, hage, hca, hAne, hCne]
              refine ⟨?_, ?_, ?_⟩
              · intro e h
                rw [hok2] at h
                cases h
              · intro _
                exact ⟨_, hok2⟩
              · intro _ h2
                exact absurd hpf h2
    · have hok : calculate_premium pc wb policy members nA nC si inc =
          .ok { error := some ("Unknown policy_type: ".data ++ policy ++
                  ". Use ".data ++ [sqc] ++ "individual".data ++ [sqc] ++ " or ".data ++
                  [sqc] ++ "family_floater".data ++ [sqc]) } := by
        unfold calculate_premium
        rw [if_neg hpi, if_neg hpf]
      refine ⟨?_, ?_, ?_⟩
      · intro e h
        rw [hok] at h
        cases h
      · intro _
        exact ⟨_, hok⟩
      · intro _ _
        exact ⟨_, hok, rfl⟩

/-- Counterexample to C4 as stated: calling the dispatcher for a family
floater with explicit adult and child counts and a nonempty members list
whose member lacks the age key raises KeyError (the eldest-age
comprehension) instead of returning an error dict. -/
theorem calculate_premium_counterexample :
    calculate_premium {} [] ("family_floater".data) (some [{ age := none }]) (some 1) (some 0)
      500000 true = .error .keyError := rfl

/-- Witness for C4: with every member carrying an age, the dispatcher
returns an ok result dict. -/
theorem calculate_premium_error_handling_witness :
    isOkE (calculate_premium {} wbIndividual ("individual".data)
      (some [{ age := some 30 }]) none none 500000 true) = true := by
  obtain ⟨r, hr⟩ :=
    (calculate_premium_error_handling {} wbIndividual ("individual".data)
      (some [{ age := some 30 }]) none none 500000 true).2.1 (by decide)
  rw [hr]
  rfl

theorem countThoughts_append (a b : List ReActStep) :
    countThoughts (a ++ b) = countThoughts a + countThoughts b := by
  simp [countThoughts, List.filter_append]

theorem add_step_current_count (t : ReActTrace) (s : ReActStep) :
    (add_step t s).current_iteration = countThoughts t.steps + countThoughts [s] := by
  simp [add_step, countThoughts_append]

theorem add_step_steps_eq (t : ReActTrace) (s : ReActStep) :
    (add_step t s).steps = t.steps ++ [s] := rfl

theorem countThoughts_singleton (s : ReActStep) :
    countThoughts [s] = if s.step_type = .thought then 1 else 0 := by
  by_cases h : s.step_type = ReActStepType.thought
  · rw [if_pos h]
    simp only [countThoughts, List.filter]
    rw [h]
    rfl
  · rw [if_neg h]
    have hb : (s.step_type == ReActStepType.thought) = false := by
      cases hst : s.step_type
      · exact absurd hst h
      all_goals rfl
    simp only [countThoughts, List.filter]
    rw [hb]
    rfl

theorem runAux_never_finish {Ctx : Type} (jparse : Str → Option JValue) (jdump : JValue → Str)
    (llm : ReActTrace → Str) (tools : List (Str × ReActTool Ctx)) (ctx : Ctx) (M : Nat)
    (hnf : ∀ t, (_parse_react_response jparse (pyStrip (llm t))).2.1 ≠ "finish".data) :
    ∀ (fuel : Nat) (t : ReActTrace), t.current_iteration = countThoughts t.steps →
      t.current_iteration + fuel = M →
      (runAux jparse jdump llm tools ctx M fuel t).current_iteration = M ∧
      countThoughts (runAux jparse jdump llm tools ctx M fuel t).steps = M ∧
      (runAux jparse jdump llm tools ctx M fuel t).success = t.success ∧
      (runAux jparse jdump llm tools ctx M fuel t).final_answer = t.final_answer := by
  intro fuel
  induction fuel with
  | zero =>
    intro t hinv hsum
    refine ⟨by simpa [runAux] using by omega, ?_, by simp [runAux], by simp [runAux]⟩
    simp only [runAux]
    omega
  | succ fuel ih =>
    intro t hinv hsum
    have hlt : t.current_iteration < M := by omega
    have hne : ((_parse_react_response jparse (pyStrip (llm t))).2.1 == "finish".data) = false :=
      beq_eq_false_iff_ne.mpr (hnf t)
    simp only [runAux, hlt, if_true, hne, Bool.false_eq_true, if_false]
    refine ih _ rfl ?_
    simp only [add_step_current_count, add_step_steps_eq, countThoughts_append,
      countThoughts_singleton, thoughtStepOf, actionStepOf, obsStepOf]
    simp only [← hinv]
    simp
    omega

/-- Claim C2: for every reasoner whose parsed action is never finish, run
terminates with exactly max_iterations thought steps, success false, and
the fixed max-iterations message as the final answer. -/
theorem react_run_never_finish {Ctx : Type} (jparse : Str → Option JValue)
    (jdump : JValue → Str) (llm : ReActTrace → Str) (tools : List (Str × ReActTool Ctx))
    (ctx : Ctx) (q : Str) (M : Nat)
    (hnf : ∀ t, (_parse_react_response jparse (pyStrip (llm t))).2.1 ≠ "finish".data) :
    (run jparse jdump llm tools ctx q M).success = false ∧
    (run jparse jdump llm tools ctx q M).final_answer =
      some ("Maximum reasoning iterations reached. Could not complete task.".data) ∧
    (run jparse jdump llm tools ctx q M).iterations = M ∧
    countThoughts (run jparse jdump llm tools ctx q M).steps = M := by
  obtain ⟨h1, h2, h3, h4⟩ := runAux_never_finish jparse jdump llm tools ctx M hnf M
    { query := q, max_iterations := M } rfl (by simp)
  have hcond : (M ≤ (runAux jparse jdump llm tools ctx M M
      { query := q, max_iterations := M }).current_iteration &&
      !(runAux jparse jdump llm tools ctx M M { query := q, max_iterations := M }).success) = true := by
    rw [h1, h3]
    simp
  refine ⟨?_, ?_, ?_, ?_⟩
  · simp [run, hcond]
  · simp [run, hcond, maxIterMsg]
  · simp only [run, hcond, if_true]
    exact h1
  · simp only [run, hcond, if_true]
    exact h2

/-- Witness for C2: a reasoner stub that always proposes tool t1 runs out
of the iteration cap 2 with exactly two thought steps. -/
theorem react_run_never_finish_witness :
    (run jEmptyObj jDumpStub llmT1 [("t1".data, toolBoom)] () ("q".data) 2).success = false ∧
    (run jEmptyObj jDumpStub llmT1 [("t1".data, toolBoom)] () ("q".data) 2).final_answer =
      some ("Maximum reasoning iterations reached. Could not complete task.".data) ∧
    (run jEmptyObj jDumpStub llmT1 [("t1".data, toolBoom)] () ("q".data) 2).iterations = 2 ∧
    countThoughts (run jEmptyObj jDumpStub llmT1 [("t1".data, toolBoom)] () ("q".data) 2).steps = 2 :=
  react_run_never_finish jEmptyObj jDumpStub llmT1 [("t1".data, toolBoom)] () ("q".data) 2
    (fun t hcontr => by
      have hv : (_parse_react_response jEmptyObj (pyStrip (llmT1 t))).2.1 = "t1".data := rfl
      rw [hv] at hcontr
      exact absurd hcontr (by decide))

/-- Claim C5: when the dispatched tool raises, the exception is caught at
the dispatch boundary and converted into the observation string
"Error executing tool: message"; the loop pass still appends the
Observation step carrying that observation and recurses with the remaining
budget, so the exception never propagates out of the iteration. -/
theorem react_tool_error_observation {Ctx : Type} (jparse : Str → Option JValue)
    (jdump : JValue → Str) (llm : ReActTrace → Str) (tools : List (Str × ReActTool Ctx))
    (ctx : Ctx) (M fuel : Nat) (t : ReActTrace) (p : Str × Str × JValue)
    (tool : ReActTool Ctx) (msg : Str)
    (hp : _parse_react_response jparse (pyStrip (llm t)) = p)
    (hlt : t.current_iteration < M)
    (hfin : p.2.1 ≠ "finish".data)
    (htool : List.lookup p.2.1 tools = some tool)
    (herr : tool (jdump p.2.2) ctx = .error msg) :
    _execute_action tools jdump p.2.1 p.2.2 ctx =
      .jstr ("Error executing ".data ++ p.2.1 ++ ": ".data ++ msg) ∧
    runAux jparse jdump llm tools ctx M (fuel + 1) t =
      runAux jparse jdump llm tools ctx M fuel
        (add_step
          (add_step (add_step t (thoughtStepOf t p.1))
            (actionStepOf (add_step t (thoughtStepOf t p.1)) p.2.1 p.2.2))
          (obsStepOf
            (add_step (add_step t (thoughtStepOf t p.1))
              (actionStepOf (add_step t (thoughtStepOf t p.1)) p.2.1 p.2.2))
            (.jstr ("Error executing ".data ++ p.2.1 ++ ": ".data ++ msg)))) := by
  have hexec : _execute_action tools jdump p.2.1 p.2.2 ctx =
      .jstr ("Error executing ".data ++ p.2.1 ++ ": ".data ++ msg) := by
    simp only [_execute_action, htool, herr]
  refine ⟨hexec, ?_⟩
  have hne : (p.2.1 == "finish".data) = false := beq_eq_false_iff_ne.mpr hfin
  simp only [runAux, hlt, if_true, hp, hne, Bool.false_eq_true, if_false, hexec]

/-- Witness for C5: a tool stub that raises boom yields the converted
observation string, and the run trace still records an Observation step
carrying it before the loop moves on. -/
theorem react_tool_error_observation_witness :
    _execute_action [("t1".data, toolBoom)] jDumpStub ("t1".data) (JValue.jobj []) () =
      .jstr ("Error executing t1: boom".data) ∧
    (run jEmptyObj jDumpStub llmT1 [("t1".data, toolBoom)] () ("q".data) 1).steps.map
        ReActStep.tool_output =
      [none, none, some (JValue.jstr ("Error executing t1: boom".data))] := by
  refine ⟨?_, rfl⟩
  exact (react_tool_error_observation jEmptyObj jDumpStub llmT1 [("t1".data, toolBoom)] () 1 0
      { query := "q".data, max_iterations := 1 } ("hi".data, "t1".data, JValue.jobj [])
      toolBoom ("boom".data) rfl (by decide) (by decide) rfl rfl).1

theorem not_thought_of_actioninput {l : Str}
    (h : ("Action Input:".data).isPrefixOf l = true) :
    ("Thought:".data).isPrefixOf l = false := by
  obtain ⟨r, rfl⟩ := List.isPrefixOf_iff_prefix.mp h
  rfl

theorem not_action_of_actioninput {l : Str}
    (h : ("Action Input:".data).isPrefixOf l = true) :
    ("Action:".data).isPrefixOf l = false := by
  obtain ⟨r, rfl⟩ := List.isPrefixOf_iff_prefix.mp h
  rfl

theorem not_thought_of_action {l : Str}
    (h : ("Action:".data).isPrefixOf l = true) :
    ("Thought:".data).isPrefixOf l = false := by
  obtain ⟨r, rfl⟩ := List.isPrefixOf_iff_prefix.mp h
  rfl

theorem reactLoopStep_thought (jparse : Str → Option JValue) (lines : List Str)
    (st : Str × Str × JValue) (i : Nat) (raw : Str)
    (h : ("Thought:".data).isPrefixOf (pyStrip raw) = true) :
    reactLoopStep jparse lines st (i, raw) =
      (pyStrip (replaceAll ("Thought:".data) [] (pyStrip raw)), st.2.1, st.2.2) := by
  simp only [reactLoopStep, h, if_true]

theorem reactLoopStep_action (jparse : Str → Option JValue) (lines : List Str)
    (st : Str × Str × JValue) (i : Nat) (raw : Str)
    (h : ("Action:".data).isPrefixOf (pyStrip raw) = true) :
    reactLoopStep jparse lines st (i, raw) =
      (st.1, pyStrip (replaceAll ("Action:".data) [] (pyStrip raw)), st.2.2) := by
  have hth := not_thought_of_action h
  simp only [reactLoopStep, hth, Bool.false_eq_true, if_false, h, if_true]

theorem reactLoopStep_actioninput (jparse : Str → Option JValue) (lines : List Str)
    (st : Str × Str × JValue) (i : Nat) (raw : Str)
    (h : ("Action Input:".data).isPrefixOf (pyStrip raw) = true) :
    reactLoopStep jparse lines st (i, raw) =
      (st.1, st.2.1, actionInputOfLine jparse lines i (pyStrip raw) st.2.2) := by
  have h1 := not_thought_of_actioninput h
  have h2 := not_action_of_actioninput h
  simp only [reactLoopStep, h1, h2, Bool.false_eq_true, if_false, h, if_true]

theorem reactFold_thought_const (jparse : Str → Option JValue) (lines : List Str) :
    ∀ (el : List (Nat × Str)) (st : Str × Str × JValue),
      (∀ x ∈ el, ("Thought:".data).isPrefixOf (pyStrip x.2) = false) →
      (el.foldl (reactLoopStep jparse lines) st).1 = st.1 := by
  intro el
  induction el with
  | nil => intro st _; rfl
  | cons x xs ih =>
    intro st hall
    rw [List.foldl_cons, ih _ (fun y hy => hall y (List.mem_cons_of_mem _ hy))]
    have hx := hall x (List.mem_cons_self _ _)
    simp only [reactLoopStep, hx, Bool.false_eq_true, if_false]
    split
    · rfl
    · split
      · rfl
      · rfl

theorem reactFold_action_const (jparse : Str → Option JValue) (lines : List Str) :
    ∀ (el : List (Nat × Str)) (st : Str × Str × JValue),
      (∀ x ∈ el, ("Action:".data).isPrefixOf (pyStrip x.2) = false) →
      (el.foldl (reactLoopStep jparse lines) st).2.1 = st.2.1 := by
  intro el
  induction el with
  | nil => intro st _; rfl
  | cons x xs ih =>
    intro st hall
    rw [List.foldl_cons, ih _ (fun y hy => hall y (List.mem_cons_of_mem _ hy))]
    have hx := hall x (List.mem_cons_self _ _)
    simp only [reactLoopStep, hx, Bool.false_eq_true, if_false]
    split
    · rfl
    · split
      · rfl
      · rfl

theorem reactFold_input_const (jparse : Str → Option JValue) (lines : List Str) :
    ∀ (el : List (Nat × Str)) (st : Str × Str × JValue),
      (∀ x ∈ el, ("Action Input:".data).isPrefixOf (pyStrip x.2) = false) →
      (el.foldl (reactLoopStep jparse lines) st).2.2 = st.2.2 := by
  intro el
  induction el with
  | nil => intro st _; rfl
  | cons x xs ih =>
    intro st hall
    rw [List.foldl_cons, ih _ (fun y hy => hall y (List.mem_cons_of_mem _ hy))]
    have hx := hall x (List.mem_cons_self _ _)
    simp only [reactLoopStep, hx, Bool.false_eq_true, if_false]
    split
    · rfl
    · split
      · rfl
      · rfl

theorem reactFold_single_action (jparse : Str → Option JValue) (lines : List Str)
    (pre post : List (Nat × Str)) (j : Nat) (rawA : Str) (st : Str × Str × JValue)
    (hA : ("Action:".data).isPrefixOf (pyStrip rawA) = true)
    (hpost : ∀ x ∈ post, ("Action:".data).isPrefixOf (pyStrip x.2) = false) :
    ((pre ++ (j, rawA) :: post).foldl (reactLoopStep jparse lines) st).2.1 =
      pyStrip (replaceAll ("Action:".data) [] (pyStrip rawA)) := by
  rw [List.foldl_append, List.foldl_cons]
  rw [reactFold_action_const jparse lines post _ hpost]
  rw [reactLoopStep_action jparse lines _ j rawA hA]

theorem reactFold_single_input (jparse : Str → Option JValue) (lines : List Str)
    (pre post : List (Nat × Str)) (i : Nat) (rawI : Str) (st : Str × Str × JValue)
    (hI : ("Action Input:".data).isPrefixOf (pyStrip rawI) = true)
    (hpre : ∀ x ∈ pre, ("Action Input:".data).isPrefixOf (pyStrip x.2) = false)
    (hpost : ∀ x ∈ post, ("Action Input:".data).isPrefixOf (pyStrip x.2) = false) :
    ((pre ++ (i, rawI) :: post).foldl (reactLoopStep jparse lines) st).2.2 =
      actionInputOfLine jparse lines i (pyStrip rawI) st.2.2 := by
  rw [List.foldl_append, List.foldl_cons]
  rw [reactFold_input_const jparse lines post _ hpost]
  rw [reactLoopStep_actioninput jparse lines _ i rawI hI]
  show actionInputOfLine jparse lines i (pyStrip rawI) (pre.foldl (reactLoopStep jparse lines) st).2.2 = _
  rw [reactFold_input_const jparse lines pre _ hpre]

/-- Claim C6 (amended): the response parser applies these fallbacks: a
response with no Thought line yields the placeholder thought; a response
with no Action line yields action finish with the generic no-clear-action
answer (a nonempty unrecognised action name is returned verbatim, to be
rejected later at dispatch, not defaulted to finish); and the action input
of the unique Action Input line is the inline JSON when it parses, else the
span from the first opening brace to the last closing brace of the joined
remaining lines when such a span exists and parses, else (span present but
unparseable) the joined remaining text wrapped as a query dict, else (no
span) the previously accumulated input, which starts as the empty dict
rather than a query wrapper. -/
theorem parse_react_response_fallbacks (jparse : Str → Option JValue) (response : Str) :
    ((∀ x ∈ (splitOnChar '\n' response).enum,
        ("Thought:".data).isPrefixOf (pyStrip x.2) = false) →
      (_parse_react_response jparse response).1 = "Continue with next step".data) ∧
    ((∀ x ∈ (splitOnChar '\n' response).enum,
        ("Action:".data).isPrefixOf (pyStrip x.2) = false) →
      (_parse_react_response jparse response).2.1 = "finish".data ∧
      (_parse_react_response jparse response).2.2 =
        JValue.jobj [("answer".data, JValue.jstr ("No clear action determined".data))]) ∧
    (∀ pre j rawA post pre2 i rawI post2,
      (splitOnChar '\n' response).enum = pre ++ (j, rawA) :: post →
      ("Action:".data).isPrefixOf (pyStrip rawA) = true →
      (∀ x ∈ post, ("Action:".data).isPrefixOf (pyStrip x.2) = false) →
      pyStrip (replaceAll ("Action:".data) [] (pyStrip rawA)) ≠ [] →
      (splitOnChar '\n' response).enum = pre2 ++ (i, rawI) :: post2 →
      ("Action Input:".data).isPrefixOf (pyStrip rawI) = true →
      (∀ x ∈ pre2, ("Action Input:".data).isPrefixOf (pyStrip x.2) = false) →
      (∀ x ∈ post2, ("Action Input:".data).isPrefixOf (pyStrip x.2) = false) →
      (_parse_react_response jparse response).2.1 =
        pyStrip (replaceAll ("Action:".data) [] (pyStrip rawA)) ∧
      (_parse_react_response jparse response).2.2 =
        actionInputOfLine jparse (splitOnChar '\n' response) i (pyStrip rawI)
          (JValue.jobj [])) ∧
    (∀ (lines : List Str) (i : Nat) (line : Str) (prev : JValue) (j0 : JValue),
      jparse (pyStrip (replaceAll ("Action Input:".data) [] line)) = some j0 →
      actionInputOfLine jparse lines i line prev = j0) ∧
    (∀ (lines : List Str) (i : Nat) (line : Str) (prev : JValue) (a b : Nat) (j0 : JValue),
      jparse (pyStrip (replaceAll ("Action Input:".data) [] line)) = none →
      findIdxO (fun c => c == Char.ofNat 123)
        (pyStrip (replaceAll ("Action Input:".data) []
          (joinSep ("\n".data) (lines.drop i)))) = some a →
      rfindIdx (Char.ofNat 125)
        (pyStrip (replaceAll ("Action Input:".data) []
          (joinSep ("\n".data) (lines.drop i)))) = some b →
      a < b + 1 →
      jparse (sliceStr (pyStrip (replaceAll ("Action Input:".data) []
          (joinSep ("\n".data) (lines.drop i)))) a (b + 1)) = some j0 →
      actionInputOfLine jparse lines i line prev = j0) ∧
    (∀ (lines : List Str) (i : Nat) (line : Str) (prev : JValue) (a b : Nat),
      jparse (pyStrip (replaceAll ("Action Input:".data) [] line)) = none →
      findIdxO (fun c => c == Char.ofNat 123)
        (pyStrip (replaceAll ("Action Input:".data) []
          (joinSep ("\n".data) (lines.drop i)))) = some a →
      rfindIdx (Char.ofNat 125)
        (pyStrip (replaceAll ("Action Input:".data) []
          (joinSep ("\n".data) (lines.drop i)))) = some b →
      a < b + 1 →
      jparse (sliceStr (pyStrip (replaceAll ("Action Input:".data) []
          (joinSep ("\n".data) (lines.drop i)))) a (b + 1)) = none →
      actionInputOfLine jparse lines i line prev =
        JValue.jobj [("query".data,
          JValue.jstr (pyStrip (replaceAll ("Action Input:".data) []
            (joinSep ("\n".data) (lines.drop i)))))]) ∧
    (∀ (lines : List Str) (i : Nat) (line : Str) (prev : JValue),
      jparse (pyStrip (replaceAll ("Action Input:".data) [] line)) = none →
      findIdxO (fun c => c == Char.ofNat 123)
        (pyStrip (replaceAll ("Action Input:".data) []
          (joinSep ("\n".data) (lines.drop i)))) = none →
      actionInputOfLine jparse lines i line prev = prev) := by
  refine ⟨?_, ?_, ?_, ?_, ?_, ?_, ?_⟩
  · intro hall
    have h1 := reactFold_thought_const jparse (splitOnChar '\n' response)
      (splitOnChar '\n' response).enum ([], [], JValue.jobj []) hall
    simp only [_parse_react_response, h1]
    split <;> rfl
  · intro hall
    have h1 := reactFold_action_const jparse (splitOnChar '\n' response)
      (splitOnChar '\n' response).enum ([], [], JValue.jobj []) hall
    simp only [_parse_react_response, h1]
    exact ⟨rfl, rfl⟩
  · intro pre j rawA post pre2 i rawI post2 henumA hA hpostA hne henumI hI hpreI hpostI
    have hact : ((splitOnChar '\n' response).enum.foldl
        (reactLoopStep jparse (splitOnChar '\n' response)) ([], [], JValue.jobj [])).2.1 =
        pyStrip (replaceAll ("Action:".data) [] (pyStrip rawA)) := by
      rw [henumA]
      exact reactFold_single_action jparse _ pre post j rawA _ hA hpostA
    have hinp : ((splitOnChar '\n' response).enum.foldl
        (reactLoopStep jparse (splitOnChar '\n' response)) ([], [], JValue.jobj [])).2.2 =
        actionInputOfLine jparse (splitOnChar '\n' response) i (pyStrip rawI)
          (JValue.jobj []) := by
      rw [henumI]
      exact reactFold_single_input jparse _ pre2 post2 i rawI _ hI hpreI hpostI
    have hemp : ((splitOnChar '\n' response).enum.foldl
        (reactLoopStep jparse (splitOnChar '\n' response)) ([], [], JValue.jobj [])).2.1.isEmpty
        = false := by
      rw [hact]
      cases hv : pyStrip (replaceAll ("Action:".data) [] (pyStrip rawA)) with
      | nil => exact absurd hv hne
      | cons c cs => rfl
    constructor
    · simp only [_parse_react_response, hemp, Bool.false_eq_true, if_false]
      exact hact
    · simp only [_parse_react_response, hemp, Bool.false_eq_true, if_false]
      exact hinp
  · intro lines i line prev j0 h
    simp only [actionInputOfLine, h]
  · intro lines i line prev a b j0 hn hf hr hab hs
    simp only [actionInputOfLine, hn, hf, hr]
    have hcond : (0 ≤ (a : Int) ∧ (a : Int) < (b : Int) + 1) := by
      constructor
      · exact Int.natCast_nonneg a
      · exact_mod_cast hab
    rw [if_pos (by simpa using hcond)]
    have hta : ((a : Int)).toNat = a := Int.toNat_natCast a
    have htb : (((b : Int)) + 1).toNat = b + 1 := by
      rw [show ((b : Int)) + 1 = ((b + 1 : Nat) : Int) by push_cast; ring]
      exact Int.toNat_natCast _
    rw [hta, htb, hs]
  · intro lines i line prev a b hn hf hr hab hs
    simp only [actionInputOfLine, hn, hf, hr]
    have hcond : (0 ≤ (a : Int) ∧ (a : Int) < (b : Int) + 1) := by
      constructor
      · exact Int.natCast_nonneg a
      · exact_mod_cast hab
    rw [if_pos (by simpa using hcond)]
    have hta : ((a : Int)).toNat = a := Int.toNat_natCast a
    have htb : (((b : Int)) + 1).toNat = b + 1 := by
      rw [show ((b : Int)) + 1 = ((b + 1 : Nat) : Int) by push_cast; ring]
      exact Int.toNat_natCast _
    rw [hta, htb, hs]
  · intro lines i line prev hn hf
    simp only [actionInputOfLine, hn, hf]
    rfl

/-- Counterexample to C6 as stated: with inline input "nope" failing to
parse and no brace span in the remaining text, the action input stays the
empty dict instead of the query-wrapped raw text, and the unrecognised
action name "go" is returned verbatim instead of defaulting to finish. -/
theorem parse_react_response_counterexample :
    _parse_react_response (fun _ => none)
      ("Thought: t\nAction: go\nAction Input: nope".data) =
      ("t".data, "go".data, JValue.jobj []) ∧
    "go".data ≠ "finish".data ∧
    JValue.jobj [] ≠ JValue.jobj [("query".data, JValue.jstr ("nope".data))] := by
  refine ⟨rfl, by decide, ?_⟩
  intro h
  injection h with h2
  simp at h2

/-- Witness for C6: a label-free response takes the placeholder and finish
defaults, and a response with one Action and one Action Input line whose
inline JSON parses yields that action name and parsed input. -/
theorem parse_react_response_fallbacks_witness :
    (_parse_react_response jNone ("hello".data)).1 = "Continue with next step".data ∧
    (_parse_react_response jNone ("hello".data)).2.1 = "finish".data ∧
    (_parse_react_response jOk ("Action: go\nAction Input: ok".data)).2.1 = "go".data ∧
    (_parse_react_response jOk ("Action: go\nAction Input: ok".data)).2.2 =
      JValue.jstr ("k".data) := by
  refine ⟨?_, ?_, ?_, ?_⟩
  · exact (parse_react_response_fallbacks jNone ("hello".data)).1 (by decide)
  · exact ((parse_react_response_fallbacks jNone ("hello".data)).2.1 (by decide)).1
  · exact ((parse_react_response_fallbacks jOk
      ("Action: go\nAction Input: ok".data)).2.2.1
      [] 0 ("Action: go".data) [(1, "Action Input: ok".data)]
      [(0, "Action: go".data)] 1 ("Action Input: ok".data) []
      (by decide) (by decide) (by decide) (by decide) (by decide) (by decide)
      (by decide) (by decide)).1
  · have h := ((parse_react_response_fallbacks jOk
      ("Action: go\nAction Input: ok".data)).2.2.1
      [] 0 ("Action: go".data) [(1, "Action Input: ok".data)]
      [(0, "Action: go".data)] 1 ("Action Input: ok".data) []
      (by decide) (by decide) (by decide) (by decide) (by decide) (by decide)
      (by decide) (by decide)).2
    rw [h]
    exact (parse_react_response_fallbacks jOk
      ("Action: go\nAction Input: ok".data)).2.2.2.1
      (splitOnChar '\n' ("Action: go\nAction Input: ok".data)) 1
      (pyStrip ("Action Input: ok".data)) (JValue.jobj []) (JValue.jstr ("k".data)) rfl
